import Mathlib

/-!
Shallow embedding of `safebench/gym_carla/replay_buffer.py`:
the classes `ReplayBuffer` and `ReplayBuffer_Perception`.

Payload values (actions, observations, images, extra metadata values) are an
abstract type `α`; rewards are `Int` (they are summed), dones are `Bool`.

Python exceptions are modelled by the `PyErr` type, one constructor per
exception class the translated code can raise:
  * `indexError`  — Python `IndexError` (list indexing / numpy fancy indexing
    out of range, `dones[-1]` on an empty array);
  * `valueError`  — Python/numpy `ValueError` (`np.random.randint(0, 0)`,
    `np.stack([])`, `torch.cat([])`);
  * `assertError` — Python `AssertionError` (the arity assert in
    `ReplayBuffer_Perception.store`);
  * `typeError`   — Python `TypeError`/`KeyError` when a positional payload of
    the wrong shape is destructured.
The spec's error kinds map onto these: `ShapeMismatch` is the `assertError` of
the perception arity check, `EmptyBufferError` is the `valueError` raised by
`np.random.randint` on an empty pool, and `MissingEpisodeBoundary` is the
`indexError` raised by `dones[-1]` when no done marker exists.

Mutating methods return `Except (PyErr × State) State`: a Python exception
aborts the method but the object keeps every mutation made before the raise,
so an error carries the state as mutated up to the point of failure.
-/

inductive PyErr where
  | indexError
  | valueError
  | assertError
  | typeError
deriving DecidableEq, Repr

/-- One entry of the `additional_dict` list passed to `ReplayBuffer.store`:
a Python dict holding the key `'scenario_id'` plus arbitrary extra keys.
`extra` lists the non-`scenario_id` keys in dict insertion order. -/
structure Tag (α : Type) where
  scenario_id : Nat
  extra : List (String × α)
deriving DecidableEq, Repr

/-- State of a Python `ReplayBuffer` object: one field per instance attribute. -/
structure RBState (α : Type) where
  mode : String
  buffer_capacity : Nat
  num_scenario : Nat
  buffer_len : Nat
  buffer_ego_actions : List (List α)
  buffer_scenario_actions : List (List α)
  buffer_obs : List (List α)
  buffer_next_obs : List (List α)
  buffer_rewards : List (List Int)
  buffer_dones : List (List Bool)
  buffer_additional_dict : List (List (String × List α))
  buffer_static_obs : List α
  buffer_init_action : List (List α)
  buffer_episode_reward : List Int
  buffer_init_additional_dict : List (String × List (List α))
  init_buffer_len : Nat
deriving DecidableEq, Repr

/-- `ReplayBuffer.__init__(num_scenario, mode, buffer_capacity)` followed by
`reset_buffer()` and `reset_init_buffer()`. -/
def RBState.init (α : Type) (num_scenario : Nat) (mode : String)
    (buffer_capacity : Nat) : RBState α where
  mode := mode
  buffer_capacity := buffer_capacity
  num_scenario := num_scenario
  buffer_len := 0
  buffer_ego_actions := List.replicate num_scenario []
  buffer_scenario_actions := List.replicate num_scenario []
  buffer_obs := List.replicate num_scenario []
  buffer_next_obs := List.replicate num_scenario []
  buffer_rewards := List.replicate num_scenario []
  buffer_dones := List.replicate num_scenario []
  buffer_additional_dict := List.replicate num_scenario []
  buffer_static_obs := []
  buffer_init_action := []
  buffer_episode_reward := []
  buffer_init_additional_dict := []
  init_buffer_len := 0

/-- `buckets[sid].append(v)`: fails (Python `IndexError`) when `sid` is out of
range of the outer list. -/
def bAppend (buckets : List (List β)) (sid : Nat) (v : β) :
    Option (List (List β)) :=
  if sid < buckets.length then
    some (buckets.set sid (buckets.getD sid [] ++ [v]))
  else
    none

/-- `d[k].append(v)` on a Python dict of lists, auto-creating `d[k] = []` on a
missing key; the dict is an association list in insertion order. -/
def dictAppend (d : List (String × List β)) (k : String) (v : β) :
    List (String × List β) :=
  if d.any (fun p => p.1 = k) then
    d.map (fun p => if p.1 = k then (p.1, p.2 ++ [v]) else p)
  else
    d ++ [(k, [v])]

/-- Numpy fancy indexing `np.asarray(l)[idxs]`: out-of-range raises
`IndexError`, and nothing is returned unless every index is in range. -/
def npIndex (l : List β) (idxs : List Nat) : Except PyErr (List β) :=
  match idxs with
  | [] => Except.ok []
  | i :: rest =>
    match l.get? i with
    | none => Except.error PyErr.indexError
    | some v =>
      match npIndex l rest with
      | Except.error e => Except.error e
      | Except.ok vs => Except.ok (v :: vs)

/-- `np.stack(l)[idxs]`: `np.stack` of an empty list raises `ValueError`,
otherwise fancy indexing as in `npIndex`. -/
def npStackIndex (l : List β) (idxs : List Nat) : Except PyErr (List β) :=
  if l.isEmpty then Except.error PyErr.valueError else npIndex l idxs

/-- The extras part of one iteration of the `store` loop: for each non-id key
of `additional_dict[s_i]`, append its value to
`self.buffer_additional_dict[s_i][key]` (note: indexed by the loop position
`s_i`, exactly as in the source).  `bufAdd[s_i]` is only evaluated once a
non-id key is reached, so an empty extra map never raises. -/
def extrasStep (bufAdd : List (List (String × List α))) (pos : Nat)
    (extra : List (String × α)) : Option (List (List (String × List α))) :=
  match extra with
  | [] => some bufAdd
  | _ =>
    if pos < bufAdd.length then
      some (bufAdd.set pos
        (extra.foldl (fun d kv => dictAppend d kv.1 kv.2) (bufAdd.getD pos [])))
    else
      none

/-- One iteration of the `ReplayBuffer.store` loop at position `i` with tag
entry `t`: the six bucket appends (lines 70–75 of the source, in source
order), then the extras loop (lines 78–83). -/
def storeOne (ego scen obs nobs : List α) (rew : List Int) (don : List Bool)
    (st : RBState α) (i : Nat) (t : Tag α) :
    Except (PyErr × RBState α) (RBState α) :=
  let sid := t.scenario_id
  match ego.get? i with
    | none => Except.error (PyErr.indexError, st)
    | some v₀ =>
      match bAppend st.buffer_ego_actions sid v₀ with
      | none => Except.error (PyErr.indexError, st)
      | some b₀ =>
        let st := { st with buffer_ego_actions := b₀ }
        match scen.get? i with
        | none => Except.error (PyErr.indexError, st)
        | some v₁ =>
          match bAppend st.buffer_scenario_actions sid v₁ with
          | none => Except.error (PyErr.indexError, st)
          | some b₁ =>
            let st := { st with buffer_scenario_actions := b₁ }
            match obs.get? i with
            | none => Except.error (PyErr.indexError, st)
            | some v₂ =>
              match bAppend st.buffer_obs sid v₂ with
              | none => Except.error (PyErr.indexError, st)
              | some b₂ =>
                let st := { st with buffer_obs := b₂ }
                match nobs.get? i with
                | none => Except.error (PyErr.indexError, st)
                | some v₃ =>
                  match bAppend st.buffer_next_obs sid v₃ with
                  | none => Except.error (PyErr.indexError, st)
                  | some b₃ =>
                    let st := { st with buffer_next_obs := b₃ }
                    match rew.get? i with
                    | none => Except.error (PyErr.indexError, st)
                    | some v₄ =>
                      match bAppend st.buffer_rewards sid v₄ with
                      | none => Except.error (PyErr.indexError, st)
                      | some b₄ =>
                        let st := { st with buffer_rewards := b₄ }
                        match don.get? i with
                        | none => Except.error (PyErr.indexError, st)
                        | some v₅ =>
                          match bAppend st.buffer_dones sid v₅ with
                          | none => Except.error (PyErr.indexError, st)
                          | some b₅ =>
                            let st := { st with buffer_dones := b₅ }
                            match extrasStep st.buffer_additional_dict i t.extra with
                            | none => Except.error (PyErr.indexError, st)
                            | some bA =>
                              Except.ok { st with buffer_additional_dict := bA }

/-- The loop body of `ReplayBuffer.store`, iterating over the positions of
`additional_dict`; `i` is the current position `s_i`. -/
def storeAux (ego scen obs nobs : List α) (rew : List Int) (don : List Bool) :
    RBState α → Nat → List (Tag α) → Except (PyErr × RBState α) (RBState α)
  | st, _, [] => Except.ok st
  | st, i, t :: rest =>
    match storeOne ego scen obs nobs rew don st i t with
    | Except.error e => Except.error e
    | Except.ok st' => storeAux ego scen obs nobs rew don st' (i + 1) rest

/-- `ReplayBuffer.store(data_list, additional_dict)` with
`data_list = [ego, scen, obs, nobs, rew, don]`: `buffer_len` is incremented by
`len(rewards)` up front, then the demultiplexing loop runs over the positions
of `additional_dict`. -/
def RBState.store (st : RBState α) (ego scen obs nobs : List α)
    (rew : List Int) (don : List Bool) (tags : List (Tag α)) :
    Except (PyErr × RBState α) (RBState α) :=
  storeAux ego scen obs nobs rew don
    { st with buffer_len := st.buffer_len + rew.length } 0 tags

/-- `ReplayBuffer.store_init(data_list, additional_dict)` with
`data_list = [static_obs, scenario_init_action]`.  Never raises.  The Python
`if additional_dict:` guard skips both `None` and an empty dict. -/
def RBState.store_init (st : RBState α) (static_obs : α)
    (init_action : List α) (extra : Option (List (String × List α))) :
    RBState α :=
  let st := { st with
    buffer_static_obs := st.buffer_static_obs ++ [static_obs]
    buffer_init_action := st.buffer_init_action ++ [init_action]
    init_buffer_len := st.init_buffer_len + init_action.length }
  match extra with
  | none => st
  | some [] => st
  | some l => { st with
      buffer_init_additional_dict :=
        l.foldl (fun d kv => dictAppend d kv.1 kv.2)
          st.buffer_init_additional_dict }

/-- `np.where(dones)[0]`: the indices at which the list holds `true`, in
increasing order. -/
def doneIndices (l : List Bool) : List Nat :=
  (List.range l.length).filter (fun i => l.getD i false)

/-- The body of `finish_one_episode` for one scenario id: `none` models the
`IndexError` of `dones[-1]` on an empty index array; otherwise the sum of
`rewards[start_+1 : end_+1]` where `start_ = dones[-2]` if there are at least
two markers and `-1` otherwise. -/
def episodeSum (rewards : List Int) (dones : List Bool) : Option Int :=
  let D := doneIndices dones
  match D.getLast? with
  | none => none
  | some endIdx =>
    let startSucc := if D.length > 1 then D.getD (D.length - 2) 0 + 1 else 0
    some (((rewards.take (endIdx + 1)).drop startSucc).sum)

/-- The `for s_i in range(self.num_scenario)` loop of `finish_one_episode`. -/
def finishAux : RBState α → List Nat → Except (PyErr × RBState α) (RBState α)
  | st, [] => Except.ok st
  | st, s :: rest =>
    match episodeSum (st.buffer_rewards.getD s []) (st.buffer_dones.getD s []) with
    | none => Except.error (PyErr.indexError, st)
    | some v =>
      finishAux
        { st with buffer_episode_reward := st.buffer_episode_reward ++ [v] }
        rest

/-- `ReplayBuffer.finish_one_episode()`. -/
def RBState.finish_one_episode (st : RBState α) :
    Except (PyErr × RBState α) (RBState α) :=
  finishAux st (List.range st.num_scenario)

/-- The pooled list built by the `sample` loop: for each scenario id, the
suffix of its bucket from `start_idx = max(0, len − W)` where the length is
measured on the measuring field (`buffer_rewards` for `ReplayBuffer`,
`buffer_loss` for the perception variant), concatenated in scenario-id order.
Nat subtraction gives exactly `max(0, len − W)`. -/
def pooledBy (ns W : Nat) (measure : List (List γ)) (field : List (List β)) :
    List β :=
  (List.range ns).flatMap (fun s =>
    (field.getD s []).drop ((measure.getD s []).length - W))

/-- Batch returned by `ReplayBuffer.sample`. -/
structure Batch (α : Type) where
  action : List α
  state : List α
  n_state : List α
  reward : List Int
  done : List Bool
deriving DecidableEq, Repr

/-- `ReplayBuffer.sample(batch_size)`.  The random draw
`np.random.randint(0, n, size=batch_size)` is modelled by the argument
`draws`, the list of drawn indices (`batch_size = draws.length`); `randint`
raises `ValueError` exactly when the pool is empty, and otherwise every drawn
index is `< n` — theorems carry that contract as a hypothesis. -/
def RBState.sample (st : RBState α) (draws : List Nat) :
    Except PyErr (Batch α) :=
  let W := st.buffer_capacity / st.num_scenario
  let pEgo := pooledBy st.num_scenario W st.buffer_rewards st.buffer_ego_actions
  let pScen := pooledBy st.num_scenario W st.buffer_rewards st.buffer_scenario_actions
  let pObs := pooledBy st.num_scenario W st.buffer_rewards st.buffer_obs
  let pNobs := pooledBy st.num_scenario W st.buffer_rewards st.buffer_next_obs
  let pRew := pooledBy st.num_scenario W st.buffer_rewards st.buffer_rewards
  let pDon := pooledBy st.num_scenario W st.buffer_rewards st.buffer_dones
  if pRew.length = 0 then Except.error PyErr.valueError
  else do
    let action ←
      if st.mode = "train_agent" then npStackIndex pEgo draws
      else npStackIndex pScen draws
    let state ← npStackIndex pObs draws
    let n_state ← npStackIndex pNobs draws
    let reward ← npStackIndex pRew draws
    let done ← npStackIndex pDon draws
    Except.ok ⟨action, state, n_state, reward, done⟩

/-- Batch returned by `ReplayBuffer.sample_init`. -/
structure InitBatch (α : Type) where
  init_action : List α
  episode_reward : List Int
  extras : List (String × List α)
deriving DecidableEq, Repr

/-- `ReplayBuffer.sample_init(batch_size)`.  `num_trajectory` is the number of
stored init records (one per `store_init` call); the window start is
`max(0, num_trajectory − buffer_capacity)`;
`np.random.randint` raises `ValueError` on an empty record window; the init
actions are `np.concatenate`d (flattened to rows) before fancy indexing, while
`episode_reward` is indexed record-wise; each registered extra column is
`torch.cat`-flattened over the same window (`torch.cat` of an empty list
raises) and indexed with the same draws; `initExtras` below is that
per-key loop. -/
def initExtras (start : Nat) (draws : List Nat) :
    List (String × List (List α)) → Except PyErr (List (String × List α))
  | [] => Except.ok []
  | (k, col) :: rest =>
    let cols := col.drop start
    if cols.isEmpty then Except.error PyErr.valueError
    else
      match npIndex cols.flatten draws with
      | Except.error e => Except.error e
      | Except.ok v =>
        match initExtras start draws rest with
        | Except.error e => Except.error e
        | Except.ok out => Except.ok ((k, v) :: out)

def RBState.sample_init (st : RBState α) (draws : List Nat) :
    Except PyErr (InitBatch α) :=
  let numT := st.buffer_init_action.length
  let start := numT - st.buffer_capacity
  let pInit := st.buffer_init_action.drop start
  let pEp := st.buffer_episode_reward.drop start
  if pInit.length = 0 then Except.error PyErr.valueError
  else do
    let initAct ← npIndex pInit.flatten draws
    let epRew ← npIndex pEp draws
    let extras ← initExtras start draws st.buffer_init_additional_dict
    Except.ok ⟨initAct, epRew, extras⟩

/-- One entry of `ego_actions` passed to `ReplayBuffer_Perception.store`:
a dict read at key `'od_result'`. -/
structure PercEgo (α : Type) where
  od_result : α
deriving DecidableEq, Repr

/-- One entry of `scenario_actions`: a dict read at key `'attack'`. -/
structure PercScen (α : Type) where
  attack : α
deriving DecidableEq, Repr

/-- One entry of `obs`: a dict read at key `'img'`. -/
structure PercObs (α : Type) where
  img : α
deriving DecidableEq, Repr

/-- One entry of `infos`: a dict read at keys `'scenario_id'`, `'bbox_label'`
and `'iou_loss'`. -/
structure PercInfo (α : Type) where
  scenario_id : Nat
  bbox_label : α
  iou_loss : α
deriving DecidableEq, Repr

/-- One positional element of the heterogeneous `data_list` given to
`ReplayBuffer_Perception.store`. -/
inductive PercCol (α : Type) where
  | ego (l : List (PercEgo α))
  | scen (l : List (PercScen α))
  | obs (l : List (PercObs α))
  | info (l : List (PercInfo α))
deriving DecidableEq, Repr

/-- State of a Python `ReplayBuffer_Perception` object. -/
structure PState (α : Type) where
  mode : String
  buffer_capacity : Nat
  num_scenario : Nat
  buffer_len : Nat
  buffer_bbox_label : List (List α)
  buffer_predictions : List (List α)
  buffer_scenario_actions : List (List α)
  buffer_obs : List (List α)
  buffer_loss : List (List α)
deriving DecidableEq, Repr

/-- `ReplayBuffer_Perception.__init__(num_scenario, mode, buffer_capacity)`. -/
def PState.init (α : Type) (num_scenario : Nat) (mode : String)
    (buffer_capacity : Nat) : PState α where
  mode := mode
  buffer_capacity := buffer_capacity
  num_scenario := num_scenario
  buffer_len := 0
  buffer_bbox_label := List.replicate num_scenario []
  buffer_predictions := List.replicate num_scenario []
  buffer_scenario_actions := List.replicate num_scenario []
  buffer_obs := List.replicate num_scenario []
  buffer_loss := List.replicate num_scenario []

/-- One iteration of the `ReplayBuffer_Perception.store` loop at position `i`:
the five bucket appends of lines 204–208 of the source, in source order. -/
def pStoreOne (ego : List (PercEgo α)) (scen : List (PercScen α))
    (obs : List (PercObs α)) (st : PState α) (i : Nat) (info : PercInfo α) :
    Except (PyErr × PState α) (PState α) :=
  let sid := info.scenario_id
  match ego.get? i with
    | none => Except.error (PyErr.indexError, st)
    | some e =>
      match bAppend st.buffer_predictions sid e.od_result with
      | none => Except.error (PyErr.indexError, st)
      | some b₀ =>
        let st := { st with buffer_predictions := b₀ }
        match scen.get? i with
        | none => Except.error (PyErr.indexError, st)
        | some sc =>
          match bAppend st.buffer_scenario_actions sid sc.attack with
          | none => Except.error (PyErr.indexError, st)
          | some b₁ =>
            let st := { st with buffer_scenario_actions := b₁ }
            match obs.get? i with
            | none => Except.error (PyErr.indexError, st)
            | some ob =>
              match bAppend st.buffer_obs sid ob.img with
              | none => Except.error (PyErr.indexError, st)
              | some b₂ =>
                let st := { st with buffer_obs := b₂ }
                match bAppend st.buffer_bbox_label sid info.bbox_label with
                | none => Except.error (PyErr.indexError, st)
                | some b₃ =>
                  let st := { st with buffer_bbox_label := b₃ }
                  match bAppend st.buffer_loss sid info.iou_loss with
                  | none => Except.error (PyErr.indexError, st)
                  | some b₄ =>
                    Except.ok { st with buffer_loss := b₄ }

/-- The loop body of `ReplayBuffer_Perception.store`, iterating over the
positions of `infos`. -/
def pStoreAux (ego : List (PercEgo α)) (scen : List (PercScen α))
    (obs : List (PercObs α)) :
    PState α → Nat → List (PercInfo α) → Except (PyErr × PState α) (PState α)
  | st, _, [] => Except.ok st
  | st, i, info :: rest =>
    match pStoreOne ego scen obs st i info with
    | Except.error e => Except.error e
    | Except.ok st' => pStoreAux ego scen obs st' (i + 1) rest

/-- `ReplayBuffer_Perception.store(data_list)`: first the
`assert len(data_list) == 4` (an `AssertionError`, the spec's
`ShapeMismatch`), then destructuring of the four positional columns, then
`buffer_len += len(infos)` and the demultiplexing loop. -/
def PState.store (st : PState α) (dataList : List (PercCol α)) :
    Except (PyErr × PState α) (PState α) :=
  if dataList.length ≠ 4 then Except.error (PyErr.assertError, st)
  else
    match dataList with
    | [PercCol.ego ea, PercCol.scen sa, PercCol.obs ob, PercCol.info inf] =>
      pStoreAux ea sa ob
        { st with buffer_len := st.buffer_len + inf.length } 0 inf
    | _ => Except.error (PyErr.typeError, st)

/-- Batch returned by `ReplayBuffer_Perception.sample`. -/
structure PBatch (α : Type) where
  label : List α
  image : List α
  loss : List α
deriving DecidableEq, Repr

/-- `ReplayBuffer_Perception.sample(batch_size)`: the same windowed pooling as
`ReplayBuffer.sample`, with `buffer_loss` as the measuring field, returning
only `label`, `image` and `loss` (predictions and attack are withheld). -/
def PState.sample (st : PState α) (draws : List Nat) :
    Except PyErr (PBatch α) :=
  let W := st.buffer_capacity / st.num_scenario
  let pLab := pooledBy st.num_scenario W st.buffer_loss st.buffer_bbox_label
  let pObs := pooledBy st.num_scenario W st.buffer_loss st.buffer_obs
  let pLoss := pooledBy st.num_scenario W st.buffer_loss st.buffer_loss
  if pLoss.length = 0 then Except.error PyErr.valueError
  else do
    let label ← npStackIndex pLab draws
    let image ← npStackIndex pObs draws
    let loss ← npStackIndex pLoss draws
    Except.ok ⟨label, image, loss⟩

/-- The six-field alignment invariant of a `ReplayBuffer`: each bucket list
has one bucket per scenario slot and, for every slot, the six per-field
buckets have equal length. -/
def RBaligned (st : RBState α) : Prop :=
  st.buffer_ego_actions.length = st.num_scenario ∧
  st.buffer_scenario_actions.length = st.num_scenario ∧
  st.buffer_obs.length = st.num_scenario ∧
  st.buffer_next_obs.length = st.num_scenario ∧
  st.buffer_rewards.length = st.num_scenario ∧
  st.buffer_dones.length = st.num_scenario ∧
  st.buffer_additional_dict.length = st.num_scenario ∧
  ∀ s, s < st.num_scenario →
    ((st.buffer_ego_actions.getD s []).length = (st.buffer_rewards.getD s []).length ∧
     (st.buffer_scenario_actions.getD s []).length = (st.buffer_rewards.getD s []).length ∧
     (st.buffer_obs.getD s []).length = (st.buffer_rewards.getD s []).length ∧
     (st.buffer_next_obs.getD s []).length = (st.buffer_rewards.getD s []).length ∧
     (st.buffer_dones.getD s []).length = (st.buffer_rewards.getD s []).length)

/-- The five-field alignment invariant of a `ReplayBuffer_Perception`. -/
def Paligned (st : PState α) : Prop :=
  st.buffer_bbox_label.length = st.num_scenario ∧
  st.buffer_predictions.length = st.num_scenario ∧
  st.buffer_scenario_actions.length = st.num_scenario ∧
  st.buffer_obs.length = st.num_scenario ∧
  st.buffer_loss.length = st.num_scenario ∧
  ∀ s, s < st.num_scenario →
    ((st.buffer_bbox_label.getD s []).length = (st.buffer_loss.getD s []).length ∧
     (st.buffer_predictions.getD s []).length = (st.buffer_loss.getD s []).length ∧
     (st.buffer_scenario_actions.getD s []).length = (st.buffer_loss.getD s []).length ∧
     (st.buffer_obs.getD s []).length = (st.buffer_loss.getD s []).length)

/-- The state an operation leaves behind, whether it returned normally or
raised: an exception keeps the mutations made before the raise. -/
def resultState : Except (PyErr × σ) σ → σ
  | Except.ok s => s
  | Except.error (_, s) => s

instance : DecidablePred (RBaligned (α := α)) := fun st => by
  unfold RBaligned
  exact inferInstance

instance : DecidablePred (Paligned (α := α)) := fun st => by
  unfold Paligned
  exact inferInstance

lemma getD_set_self (l : List γ) (i : Nat) (x d : γ) (h : i < l.length) :
    (l.set i x).getD i d = x := by
  simp [List.getD_eq_getElem?_getD, List.getElem?_set_self, h]

lemma getD_set_ne (l : List γ) (i j : Nat) (x d : γ) (h : i ≠ j) :
    (l.set i x).getD j d = l.getD j d := by
  simp [List.getD_eq_getElem?_getD, List.getElem?_set_ne h]

lemma get?_eq_some_getD (l : List γ) (i : Nat) (d : γ) (h : i < l.length) :
    l.get? i = some (l.getD i d) := by
  simp [List.getD_eq_getElem?_getD, List.get?_eq_getElem?, List.getElem?_eq_getElem h]

lemma get?_eq_none_of_le (l : List γ) (i : Nat) (h : l.length ≤ i) :
    l.get? i = none := by
  simp [List.get?_eq_getElem?, List.getElem?_eq_none h]

lemma getD_mem (l : List γ) (i : Nat) (d : γ) (h : i < l.length) :
    l.getD i d ∈ l := by
  rw [List.getD_eq_getElem?_getD, List.getElem?_eq_getElem h]
  exact List.getElem_mem h

lemma get?_isSome_of_lt (l : List γ) (i : Nat) (h : i < l.length) :
    ∃ a, l.get? i = some a :=
  ⟨l.getD i (l.get ⟨i, h⟩), get?_eq_some_getD l i _ h⟩

lemma lt_of_get?_eq_some {l : List γ} {i : Nat} {a : γ} (h : l.get? i = some a) :
    i < l.length := by
  by_contra hn
  rw [get?_eq_none_of_le l i (by omega)] at h
  exact Option.noConfusion h

lemma npIndex_ok (l : List γ) (idxs : List Nat) (d : γ)
    (h : ∀ i ∈ idxs, i < l.length) :
    npIndex l idxs = Except.ok (idxs.map (fun i => l.getD i d)) := by
  induction idxs with
  | nil => rfl
  | cons i rest ih =>
    have hi : i < l.length := h i (by simp)
    have hrest : ∀ j ∈ rest, j < l.length := fun j hj => h j (by simp [hj])
    simp only [npIndex, get?_eq_some_getD l i d hi, ih hrest, List.map_cons]

lemma npStackIndex_ok (l : List γ) (idxs : List Nat) (d : γ)
    (hne : l.length ≠ 0) (h : ∀ i ∈ idxs, i < l.length) :
    npStackIndex l idxs = Except.ok (idxs.map (fun i => l.getD i d)) := by
  have : l.isEmpty = false := by
    cases l with
    | nil => simp at hne
    | cons a t => rfl
  rw [npStackIndex, this]
  simp only [Bool.false_eq_true, if_false]
  exact npIndex_ok l idxs d h

lemma bAppend_some (buckets : List (List γ)) (sid : Nat) (v : γ)
    (h : sid < buckets.length) :
    bAppend buckets sid v = some (buckets.set sid (buckets.getD sid [] ++ [v])) := by
  simp [bAppend, h]

lemma bAppend_length {buckets b : List (List γ)} {sid : Nat} {v : γ}
    (h : bAppend buckets sid v = some b) : b.length = buckets.length := by
  unfold bAppend at h
  split at h
  · cases h
    simp
  · exact Option.noConfusion h

/-- Python dict lookup with `[]` default, first matching key. -/
def lookupD : List (String × List γ) → String → List γ
  | [], _ => []
  | (k', v) :: rest, k => if k' = k then v else lookupD rest k

lemma lookupD_mapAppend_extends (d : List (String × List γ)) (k k' : String)
    (v : γ) :
    lookupD d k' <+:
      lookupD (d.map (fun p => if p.1 = k then (p.1, p.2 ++ [v]) else p)) k' := by
  induction d with
  | nil => exact List.prefix_rfl
  | cons p rest ih =>
    obtain ⟨pk, pv⟩ := p
    by_cases hk : pk = k
    · simp only [List.map_cons]
      rw [if_pos hk]
      simp only [lookupD]
      by_cases hpk : pk = k'
      · rw [if_pos hpk, if_pos hpk]
        exact List.prefix_append _ _
      · rw [if_neg hpk, if_neg hpk]
        exact ih
    · simp only [List.map_cons]
      rw [if_neg hk]
      simp only [lookupD]
      by_cases hpk : pk = k'
      · rw [if_pos hpk, if_pos hpk]
      · rw [if_neg hpk, if_neg hpk]
        exact ih

lemma lookupD_appendSingle_extends (d : List (String × List γ)) (k k' : String)
    (v : γ) : lookupD d k' <+: lookupD (d ++ [(k, [v])]) k' := by
  induction d with
  | nil =>
    show [] <+: lookupD [(k, [v])] k'
    exact List.nil_prefix
  | cons p rest ih =>
    obtain ⟨pk, pv⟩ := p
    simp only [List.cons_append, lookupD]
    by_cases hpk : pk = k'
    · rw [if_pos hpk, if_pos hpk]
    · rw [if_neg hpk, if_neg hpk]
      exact ih

lemma lookupD_dictAppend_extends (d : List (String × List γ)) (k k' : String)
    (v : γ) : lookupD d k' <+: lookupD (dictAppend d k v) k' := by
  unfold dictAppend
  split
  · exact lookupD_mapAppend_extends d k k' v
  · exact lookupD_appendSingle_extends d k k' v

/-- The state after the six bucket appends of one `store` iteration: every one
of the six transition fields gains one value in the bucket named by `sid`. -/
def appendSix (st : RBState α) (sid : Nat) (a b o n : α) (r : Int)
    (d : Bool) : RBState α :=
  { st with
    buffer_ego_actions :=
      st.buffer_ego_actions.set sid (st.buffer_ego_actions.getD sid [] ++ [a])
    buffer_scenario_actions :=
      st.buffer_scenario_actions.set sid (st.buffer_scenario_actions.getD sid [] ++ [b])
    buffer_obs :=
      st.buffer_obs.set sid (st.buffer_obs.getD sid [] ++ [o])
    buffer_next_obs :=
      st.buffer_next_obs.set sid (st.buffer_next_obs.getD sid [] ++ [n])
    buffer_rewards :=
      st.buffer_rewards.set sid (st.buffer_rewards.getD sid [] ++ [r])
    buffer_dones :=
      st.buffer_dones.set sid (st.buffer_dones.getD sid [] ++ [d]) }

lemma storeOne_eq {ego scen obs nobs : List α} {rew : List Int}
    {don : List Bool} {st : RBState α} {i : Nat} {t : Tag α}
    {a b o n : α} {r : Int} {d : Bool}
    (e₀ : ego.get? i = some a) (e₁ : scen.get? i = some b)
    (e₂ : obs.get? i = some o) (e₃ : nobs.get? i = some n)
    (e₄ : rew.get? i = some r) (e₅ : don.get? i = some d)
    (h₀ : t.scenario_id < st.buffer_ego_actions.length)
    (h₁ : t.scenario_id < st.buffer_scenario_actions.length)
    (h₂ : t.scenario_id < st.buffer_obs.length)
    (h₃ : t.scenario_id < st.buffer_next_obs.length)
    (h₄ : t.scenario_id < st.buffer_rewards.length)
    (h₅ : t.scenario_id < st.buffer_dones.length) :
    storeOne ego scen obs nobs rew don st i t =
      match extrasStep st.buffer_additional_dict i t.extra with
      | none =>
        Except.error (PyErr.indexError, appendSix st t.scenario_id a b o n r d)
      | some bA =>
        Except.ok
          { appendSix st t.scenario_id a b o n r d with
            buffer_additional_dict := bA } := by
  simp only [storeOne, e₀, e₁, e₂, e₃, e₄, e₅,
    bAppend_some _ _ _ h₀, bAppend_some _ _ _ h₁, bAppend_some _ _ _ h₂,
    bAppend_some _ _ _ h₃, bAppend_some _ _ _ h₄, bAppend_some _ _ _ h₅,
    appendSix]

lemma extrasStep_length {bufAdd bA : List (List (String × List α))} {pos : Nat}
    {extra : List (String × α)} (h : extrasStep bufAdd pos extra = some bA) :
    bA.length = bufAdd.length := by
  unfold extrasStep at h
  split at h
  · cases h
    rfl
  · split at h
    · cases h
      simp
    · exact Option.noConfusion h

lemma RBaligned_appendSix {st : RBState α} {sid : Nat} {a b o n : α}
    {r : Int} {d : Bool} (hA : RBaligned st) (hs : sid < st.num_scenario) :
    RBaligned (appendSix st sid a b o n r d) := by
  obtain ⟨l₀, l₁, l₂, l₃, l₄, l₅, l₆, hb⟩ := hA
  refine ⟨by simp [appendSix, l₀], by simp [appendSix, l₁], by simp [appendSix, l₂],
    by simp [appendSix, l₃], by simp [appendSix, l₄], by simp [appendSix, l₅],
    by simp [appendSix, l₆], ?_⟩
  intro s hsn
  obtain ⟨g₀, g₁, g₂, g₃, g₄⟩ := hb s hsn
  by_cases hseq : sid = s
  · subst hseq
    simp only [appendSix]
    rw [getD_set_self _ _ _ _ (by omega), getD_set_self _ _ _ _ (by omega),
      getD_set_self _ _ _ _ (by omega), getD_set_self _ _ _ _ (by omega),
      getD_set_self _ _ _ _ (by omega), getD_set_self _ _ _ _ (by omega)]
    simp only [List.length_append, List.length_singleton]
    omega
  · simp only [appendSix]
    rw [getD_set_ne _ _ _ _ _ hseq, getD_set_ne _ _ _ _ _ hseq,
      getD_set_ne _ _ _ _ _ hseq, getD_set_ne _ _ _ _ _ hseq,
      getD_set_ne _ _ _ _ _ hseq, getD_set_ne _ _ _ _ _ hseq]
    exact ⟨g₀, g₁, g₂, g₃, g₄⟩

lemma RBaligned_setAdd {st : RBState α} {bA : List (List (String × List α))}
    (hA : RBaligned st) (hl : bA.length = st.num_scenario) :
    RBaligned { st with buffer_additional_dict := bA } := by
  obtain ⟨l₀, l₁, l₂, l₃, l₄, l₅, _, hb⟩ := hA
  exact ⟨l₀, l₁, l₂, l₃, l₄, l₅, hl, hb⟩

lemma storeAux_result_aligned {ego scen obs nobs : List α} {rew : List Int}
    {don : List Bool} :
    ∀ (rest : List (Tag α)) (st : RBState α) (i : Nat),
      RBaligned st →
      (∀ t ∈ rest, t.scenario_id < st.num_scenario) →
      (∀ k, k < rest.length →
        i + k < ego.length ∧ i + k < scen.length ∧ i + k < obs.length ∧
        i + k < nobs.length ∧ i + k < rew.length ∧ i + k < don.length) →
      RBaligned (resultState (storeAux ego scen obs nobs rew don st i rest)) ∧
      (resultState (storeAux ego scen obs nobs rew don st i rest)).num_scenario
        = st.num_scenario := by
  intro rest
  induction rest with
  | nil =>
    intro st i hA _ _
    exact ⟨hA, rfl⟩
  | cons t rest ih =>
    intro st i hA hsid hlen
    obtain ⟨hi₀, hi₁, hi₂, hi₃, hi₄, hi₅⟩ := hlen 0 (by simp)
    rw [Nat.add_zero] at hi₀ hi₁ hi₂ hi₃ hi₄ hi₅
    obtain ⟨a, e₀⟩ := get?_isSome_of_lt _ _ hi₀
    obtain ⟨b, e₁⟩ := get?_isSome_of_lt _ _ hi₁
    obtain ⟨o, e₂⟩ := get?_isSome_of_lt _ _ hi₂
    obtain ⟨n, e₃⟩ := get?_isSome_of_lt _ _ hi₃
    obtain ⟨r, e₄⟩ := get?_isSome_of_lt _ _ hi₄
    obtain ⟨d, e₅⟩ := get?_isSome_of_lt _ _ hi₅
    have hts : t.scenario_id < st.num_scenario := hsid t (by simp)
    obtain ⟨l₀, l₁, l₂, l₃, l₄, l₅, l₆, -⟩ := id hA
    have heq := storeOne_eq e₀ e₁ e₂ e₃ e₄ e₅ (l₀.symm ▸ hts) (l₁.symm ▸ hts)
      (l₂.symm ▸ hts) (l₃.symm ▸ hts) (l₄.symm ▸ hts) (l₅.symm ▸ hts)
    simp only [storeAux, heq]
    cases hE : extrasStep st.buffer_additional_dict i t.extra with
    | none =>
      simp only [resultState]
      exact ⟨RBaligned_appendSix hA hts, rfl⟩
    | some bA =>
      have hbA : bA.length = st.num_scenario := (extrasStep_length hE).trans l₆
      have hA' : RBaligned
          { appendSix st t.scenario_id a b o n r d with
            buffer_additional_dict := bA } :=
        RBaligned_setAdd (RBaligned_appendSix hA hts) hbA
      have := ih
        { appendSix st t.scenario_id a b o n r d with
          buffer_additional_dict := bA } (i + 1) hA'
        (fun t' ht' => hsid t' (by simp [ht']))
        (fun k hk => by
          obtain ⟨m₀, m₁, m₂, m₃, m₄, m₅⟩ := hlen (k + 1) (by simpa using hk)
          exact ⟨by omega, by omega, by omega, by omega, by omega, by omega⟩)
      exact ⟨this.1, this.2⟩

/-- The state after the five bucket appends of one perception `store`
iteration. -/
def appendFive (st : PState α) (sid : Nat) (pred att im lab lo : α) :
    PState α :=
  { st with
    buffer_predictions :=
      st.buffer_predictions.set sid (st.buffer_predictions.getD sid [] ++ [pred])
    buffer_scenario_actions :=
      st.buffer_scenario_actions.set sid (st.buffer_scenario_actions.getD sid [] ++ [att])
    buffer_obs :=
      st.buffer_obs.set sid (st.buffer_obs.getD sid [] ++ [im])
    buffer_bbox_label :=
      st.buffer_bbox_label.set sid (st.buffer_bbox_label.getD sid [] ++ [lab])
    buffer_loss :=
      st.buffer_loss.set sid (st.buffer_loss.getD sid [] ++ [lo]) }

lemma pStoreOne_eq {ego : List (PercEgo α)} {scen : List (PercScen α)}
    {obs : List (PercObs α)} {st : PState α} {i : Nat} {info : PercInfo α}
    {e : PercEgo α} {sc : PercScen α} {ob : PercObs α}
    (e₀ : ego.get? i = some e) (e₁ : scen.get? i = some sc)
    (e₂ : obs.get? i = some ob)
    (h₀ : info.scenario_id < st.buffer_predictions.length)
    (h₁ : info.scenario_id < st.buffer_scenario_actions.length)
    (h₂ : info.scenario_id < st.buffer_obs.length)
    (h₃ : info.scenario_id < st.buffer_bbox_label.length)
    (h₄ : info.scenario_id < st.buffer_loss.length) :
    pStoreOne ego scen obs st i info =
      Except.ok (appendFive st info.scenario_id e.od_result sc.attack ob.img
        info.bbox_label info.iou_loss) := by
  simp only [pStoreOne, e₀, e₁, e₂,
    bAppend_some _ _ _ h₀, bAppend_some _ _ _ h₁, bAppend_some _ _ _ h₂,
    bAppend_some _ _ _ h₃, bAppend_some _ _ _ h₄, appendFive]

lemma Paligned_appendFive {st : PState α} {sid : Nat} {pred att im lab lo : α}
    (hA : Paligned st) (hs : sid < st.num_scenario) :
    Paligned (appendFive st sid pred att im lab lo) := by
  obtain ⟨l₀, l₁, l₂, l₃, l₄, hb⟩ := hA
  refine ⟨by simp [appendFive, l₀], by simp [appendFive, l₁],
    by simp [appendFive, l₂], by simp [appendFive, l₃],
    by simp [appendFive, l₄], ?_⟩
  intro s hsn
  obtain ⟨g₀, g₁, g₂, g₃⟩ := hb s hsn
  by_cases hseq : sid = s
  · subst hseq
    simp only [appendFive]
    rw [getD_set_self _ _ _ _ (by omega), getD_set_self _ _ _ _ (by omega),
      getD_set_self _ _ _ _ (by omega), getD_set_self _ _ _ _ (by omega),
      getD_set_self _ _ _ _ (by omega)]
    simp only [List.length_append, List.length_singleton]
    omega
  · simp only [appendFive]
    rw [getD_set_ne _ _ _ _ _ hseq, getD_set_ne _ _ _ _ _ hseq,
      getD_set_ne _ _ _ _ _ hseq, getD_set_ne _ _ _ _ _ hseq,
      getD_set_ne _ _ _ _ _ hseq]
    exact ⟨g₀, g₁, g₂, g₃⟩

lemma pStoreAux_result_aligned {ego : List (PercEgo α)}
    {scen : List (PercScen α)} {obs : List (PercObs α)} :
    ∀ (rest : List (PercInfo α)) (st : PState α) (i : Nat),
      Paligned st →
      (∀ f ∈ rest, f.scenario_id < st.num_scenario) →
      (∀ k, k < rest.length →
        i + k < ego.length ∧ i + k < scen.length ∧ i + k < obs.length) →
      Paligned (resultState (pStoreAux ego scen obs st i rest)) ∧
      (resultState (pStoreAux ego scen obs st i rest)).num_scenario
        = st.num_scenario := by
  intro rest
  induction rest with
  | nil =>
    intro st i hA _ _
    exact ⟨hA, rfl⟩
  | cons info rest ih =>
    intro st i hA hsid hlen
    obtain ⟨hi₀, hi₁, hi₂⟩ := hlen 0 (by simp)
    rw [Nat.add_zero] at hi₀ hi₁ hi₂
    obtain ⟨e, e₀⟩ := get?_isSome_of_lt _ _ hi₀
    obtain ⟨sc, e₁⟩ := get?_isSome_of_lt _ _ hi₁
    obtain ⟨ob, e₂⟩ := get?_isSome_of_lt _ _ hi₂
    have hts : info.scenario_id < st.num_scenario := hsid info (by simp)
    obtain ⟨l₀, l₁, l₂, l₃, l₄, -⟩ := id hA
    have heq := pStoreOne_eq e₀ e₁ e₂ (l₁.symm ▸ hts) (l₂.symm ▸ hts)
      (l₃.symm ▸ hts) (l₀.symm ▸ hts) (l₄.symm ▸ hts)
    simp only [pStoreAux, heq]
    have hA' : Paligned (appendFive st info.scenario_id e.od_result sc.attack
        ob.img info.bbox_label info.iou_loss) := Paligned_appendFive hA hts
    have := ih (appendFive st info.scenario_id e.od_result sc.attack ob.img
        info.bbox_label info.iou_loss) (i + 1) hA'
      (fun f hf => hsid f (by simp [hf]))
      (fun k hk => by
        obtain ⟨m₀, m₁, m₂⟩ := hlen (k + 1) (by simpa using hk)
        exact ⟨by omega, by omega, by omega⟩)
    exact ⟨this.1, this.2⟩

/-- C1: for every scenario id and after any store call on an aligned state
(with aligned inputs and in-range scenario ids), the per-field bucket lengths
of the fixed transition fields stay equal for every scenario id — in the
generic `ReplayBuffer` (six fields) and in the `ReplayBuffer_Perception`
variant (its five fields); `store` preserves the alignment invariant whether
it returns normally or raises, so it holds after every sequence of store
calls. -/
theorem store_preserves_field_alignment (α : Type) :
    (∀ (st : RBState α) (ego scen obs nobs : List α) (rew : List Int)
       (don : List Bool) (tags : List (Tag α)),
       RBaligned st →
       ego.length = tags.length → scen.length = tags.length →
       obs.length = tags.length → nobs.length = tags.length →
       rew.length = tags.length → don.length = tags.length →
       (∀ t ∈ tags, t.scenario_id < st.num_scenario) →
       RBaligned (resultState (st.store ego scen obs nobs rew don tags))) ∧
    (∀ (pst : PState α) (ea : List (PercEgo α)) (sa : List (PercScen α))
       (ob : List (PercObs α)) (inf : List (PercInfo α)),
       Paligned pst →
       ea.length = inf.length → sa.length = inf.length →
       ob.length = inf.length →
       (∀ f ∈ inf, f.scenario_id < pst.num_scenario) →
       Paligned (resultState (pst.store
         [PercCol.ego ea, PercCol.scen sa, PercCol.obs ob, PercCol.info inf]))) := by
  constructor
  · intro st ego scen obs nobs rew don tags hA h₀ h₁ h₂ h₃ h₄ h₅ hsid
    unfold RBState.store
    exact (storeAux_result_aligned tags
      { st with buffer_len := st.buffer_len + rew.length } 0 hA hsid
      (fun k hk => ⟨by omega, by omega, by omega, by omega, by omega, by omega⟩)).1
  · intro pst ea sa ob inf hA h₀ h₁ h₂ hsid
    unfold PState.store
    simp only [List.length_cons, List.length_nil]
    norm_num
    exact (pStoreAux_result_aligned inf
      { pst with buffer_len := pst.buffer_len + inf.length } 0 hA hsid
      (fun k hk => ⟨by omega, by omega, by omega⟩)).1

/-- Witness for `store_preserves_field_alignment` at a concrete input. -/
theorem store_preserves_field_alignment_witness :
    RBaligned (resultState ((RBState.init Int 2 "train_agent" 10).store
      [1, 2] [3, 4] [5, 6] [7, 8] [9, 10] [true, false]
      [⟨1, [("cost", 5)]⟩, ⟨0, []⟩])) ∧
    Paligned (resultState ((PState.init Int 2 "train_agent" 10).store
      [PercCol.ego [⟨1⟩], PercCol.scen [⟨2⟩], PercCol.obs [⟨3⟩],
       PercCol.info [⟨1, 4, 5⟩]])) :=
  ⟨(store_preserves_field_alignment Int).1 (RBState.init Int 2 "train_agent" 10)
      [1, 2] [3, 4] [5, 6] [7, 8] [9, 10] [true, false]
      [⟨1, [("cost", 5)]⟩, ⟨0, []⟩]
      (by decide) rfl rfl rfl rfl rfl rfl (by decide),
   (store_preserves_field_alignment Int).2 (PState.init Int 2 "train_agent" 10)
      [⟨1⟩] [⟨2⟩] [⟨3⟩] [⟨1, 4, 5⟩]
      (by decide) rfl rfl rfl (by decide)⟩

lemma sliceSum (l : List Int) (lo hi : Nat) :
    ((l.take (hi + 1)).drop lo).sum = ∑ i in Finset.Icc lo hi, l.getD i 0 := by
  induction hi with
  | zero =>
    cases lo with
    | zero =>
      cases l with
      | nil => simp
      | cons a t => simp
    | succ m =>
      have h1 : (l.take 1).length ≤ m + 1 := by
        have := l.length_take 1
        omega
      rw [List.drop_eq_nil_of_le h1, Finset.Icc_eq_empty (by omega)]
      simp
  | succ hi ih =>
    rw [List.take_succ, List.drop_append_eq_append_drop, List.sum_append, ih]
    rcases le_or_lt lo (hi + 1) with hlo | hlo
    · rw [Finset.sum_Icc_succ_top hlo]
      rcases lt_or_le (hi + 1) l.length with hl | hl
      · rw [List.getElem?_eq_getElem hl]
        have hlen : (l.take (hi + 1)).length = hi + 1 := by
          have := l.length_take (hi + 1)
          omega
        rw [hlen, Nat.sub_eq_zero_of_le hlo]
        simp [List.getD_eq_getElem?_getD, List.getElem?_eq_getElem hl]
      · rw [List.getElem?_eq_none hl]
        rw [List.getD_eq_default _ _ (by omega)]
        simp
    · rw [Finset.Icc_eq_empty (by omega), Finset.Icc_eq_empty (by omega)]
      have ht : (l[hi + 1]?.toList).length ≤ 1 := by
        cases l[hi + 1]? <;> simp
      have h2 := l.length_take (hi + 1)
      rw [List.drop_eq_nil_of_le (by omega)]
      simp

lemma doneIndices_ne_nil_iff (l : List Bool) :
    doneIndices l ≠ [] ↔ true ∈ l := by
  constructor
  · intro hne
    rcases hD : doneIndices l with _ | ⟨i, D⟩
    · exact absurd hD hne
    · have hi : i ∈ doneIndices l := by rw [hD]; simp
      unfold doneIndices at hi
      rw [List.mem_filter] at hi
      obtain ⟨hir, hig⟩ := hi
      rw [List.mem_range] at hir
      have := getD_mem l i false hir
      rw [hig] at this
      exact this
  · intro ht hnil
    obtain ⟨i, hi, hget⟩ := List.mem_iff_getElem.mp ht
    have him : i ∈ doneIndices l := by
      unfold doneIndices
      rw [List.mem_filter, List.mem_range]
      refine ⟨hi, ?_⟩
      rw [List.getD_eq_getElem?_getD, List.getElem?_eq_getElem hi, hget]
      rfl
    rw [hnil] at him
    exact List.not_mem_nil i him

/-- Definition taken from the claim text, not from the code: the episode
return for one scenario id is the sum of `reward` over the index interval
`D[-2]+1 … D[-1]` when there is more than one done marker, and `0 … D[-1]`
when there is at most one, where `D` lists the indices at which `done` is
true. -/
def specEpisodeReturn (rewards : List Int) (dones : List Bool) : Int :=
  let D := doneIndices dones
  match D.getLast? with
  | none => 0
  | some last =>
    let lo := if D.length > 1 then D.getD (D.length - 2) 0 + 1 else 0
    ∑ i in Finset.Icc lo last, rewards.getD i 0

lemma episodeSum_eq_none_iff (rewards : List Int) (dones : List Bool) :
    episodeSum rewards dones = none ↔ doneIndices dones = [] := by
  simp only [episodeSum]
  rcases h : (doneIndices dones).getLast? with _ | last
  · simp only [h]
    exact ⟨fun _ => List.getLast?_eq_none_iff.mp h, fun _ => trivial⟩
  · simp only [h]
    constructor
    · intro hc
      exact Option.noConfusion hc
    · intro hc
      simp [hc] at h

lemma episodeSum_eq_spec (rewards : List Int) (dones : List Bool)
    (h : doneIndices dones ≠ []) :
    episodeSum rewards dones = some (specEpisodeReturn rewards dones) := by
  simp only [episodeSum, specEpisodeReturn]
  rcases hL : (doneIndices dones).getLast? with _ | last
  · exact absurd (List.getLast?_eq_none_iff.mp hL) h
  · simp only [hL]
    rw [sliceSum]

lemma finishAux_ok (L : List Nat) : ∀ (st : RBState α),
    (∀ s ∈ L, (episodeSum (st.buffer_rewards.getD s [])
      (st.buffer_dones.getD s [])).isSome) →
    finishAux st L = Except.ok
      { st with buffer_episode_reward := (st.buffer_episode_reward ++
          L.map (fun s => (episodeSum (st.buffer_rewards.getD s [])
            (st.buffer_dones.getD s [])).getD 0)) } := by
  induction L with
  | nil =>
    intro st _
    simp only [finishAux, List.map_nil, List.append_nil]
  | cons s L ih =>
    intro st h
    obtain ⟨v, hv⟩ := Option.isSome_iff_exists.mp (h s (by simp))
    simp only [finishAux, hv]
    rw [ih { st with buffer_episode_reward := st.buffer_episode_reward ++ [v] }
      (fun s' hs' => h s' (by simp [hs']))]
    simp only [List.map_cons, hv, Option.getD_some]
    rw [List.append_assoc]
    rfl

lemma finishAux_err (L : List Nat) : ∀ (st : RBState α),
    (∃ s ∈ L, episodeSum (st.buffer_rewards.getD s [])
      (st.buffer_dones.getD s []) = none) →
    ∃ st', finishAux st L = Except.error (PyErr.indexError, st') := by
  induction L with
  | nil =>
    intro st h
    obtain ⟨s, hs, -⟩ := h
    exact absurd hs (List.not_mem_nil s)
  | cons s L ih =>
    intro st h
    rcases hv : episodeSum (st.buffer_rewards.getD s [])
        (st.buffer_dones.getD s []) with _ | v
    · exact ⟨st, by simp only [finishAux, hv]⟩
    · obtain ⟨s', hs', hnone⟩ := h
      have hs'L : s' ∈ L := by
        rcases List.mem_cons.mp hs' with heq | hmem
        · subst heq
          rw [hv] at hnone
          exact Option.noConfusion hnone
        · exact hmem
      obtain ⟨st', hst'⟩ := ih
        { st with buffer_episode_reward := st.buffer_episode_reward ++ [v] }
        ⟨s', hs'L, hnone⟩
      exact ⟨st', by simp only [finishAux, hv]; exact hst'⟩

lemma finishAux_err_shape (L : List Nat) : ∀ (st st' : RBState α) (e : PyErr),
    finishAux st L = Except.error (e, st') →
    ∃ tail, st' = { st with buffer_episode_reward :=
      st.buffer_episode_reward ++ tail } := by
  induction L with
  | nil =>
    intro st st' e h
    exact Except.noConfusion h
  | cons s L ih =>
    intro st st' e h
    rcases hv : episodeSum (st.buffer_rewards.getD s [])
        (st.buffer_dones.getD s []) with _ | v
    · simp only [finishAux, hv] at h
      have h2 : st = st' := congrArg Prod.snd (Except.error.inj h)
      refine ⟨[], ?_⟩
      rw [← h2]
      simp
    · simp only [finishAux, hv] at h
      obtain ⟨tail, htail⟩ := ih _ _ _ h
      refine ⟨v :: tail, ?_⟩
      rw [htail]
      simp

lemma finishAux_ok_isSome (L : List Nat) : ∀ (st st' : RBState α),
    finishAux st L = Except.ok st' →
    ∀ s ∈ L, (episodeSum (st.buffer_rewards.getD s [])
      (st.buffer_dones.getD s [])).isSome := by
  induction L with
  | nil =>
    intro st st' _ s hs
    exact absurd hs (List.not_mem_nil s)
  | cons s₀ L ih =>
    intro st st' h s hs
    rcases hv : episodeSum (st.buffer_rewards.getD s₀ [])
        (st.buffer_dones.getD s₀ []) with _ | v
    · simp only [finishAux, hv] at h
      exact Except.noConfusion h
    · rcases List.mem_cons.mp hs with heq | hmem
      · subst heq
        rw [hv]
        rfl
      · simp only [finishAux, hv] at h
        exact ih _ _ h s hmem

/-- The concrete six-step example of claim C2: one scenario slot, rewards
1..6 stored one at a time through `store`, with done markers after the third
and sixth. -/
def epStep (st : RBState Int) (r : Int) (d : Bool) : RBState Int :=
  resultState (st.store [0] [0] [0] [0] [r] [d] [⟨0, []⟩])

def epState3 : RBState Int :=
  epStep (epStep (epStep (RBState.init Int 1 "eval" 1000) 1 false) 2 false) 3 true

def epState3f : RBState Int := resultState epState3.finish_one_episode

def epState6 : RBState Int :=
  epStep (epStep (epStep epState3f 4 false) 5 false) 6 true

/-- C2: when every scenario id has at least one done marker,
`finish_one_episode` appends, for each scenario id in order, the sum of
`reward` over `D[-2]+1 … D[-1]` (more than one marker) or `0 … D[-1]` (at
most one), as `specEpisodeReturn` states it; on the concrete example with
rewards `[1,2,3,4,5,6]` and dones `[F,F,T,F,F,T]` the first call appends `6`
and the second appends `15`; and the call fails (the `IndexError` of
`dones[-1]`, the spec's `MissingEpisodeBoundary`) whenever some scenario id
has no done marker. -/
theorem finish_one_episode_aggregates (α : Type) :
    (∀ (st : RBState α),
      (∀ s, s < st.num_scenario → true ∈ st.buffer_dones.getD s []) →
      st.finish_one_episode = Except.ok
        { st with buffer_episode_reward := (st.buffer_episode_reward ++
            (List.range st.num_scenario).map (fun s =>
              specEpisodeReturn (st.buffer_rewards.getD s [])
                (st.buffer_dones.getD s []))) }) ∧
    (epState3.finish_one_episode.toOption = some epState3f ∧
      epState3f.buffer_episode_reward = [6] ∧
      (resultState epState6.finish_one_episode).buffer_episode_reward
        = [6, 15]) ∧
    (∀ (st : RBState α) (s : Nat), s < st.num_scenario →
      true ∉ st.buffer_dones.getD s [] →
      ∃ st', st.finish_one_episode
        = Except.error (PyErr.indexError, st')) := by
  refine ⟨?_, ⟨by decide, by decide, by decide⟩, ?_⟩
  · intro st h
    have hSome : ∀ s ∈ List.range st.num_scenario,
        (episodeSum (st.buffer_rewards.getD s [])
          (st.buffer_dones.getD s [])).isSome := by
      intro s hs
      rw [episodeSum_eq_spec _ _
        ((doneIndices_ne_nil_iff _).mpr (h s (List.mem_range.mp hs)))]
      simp
    have hmap : (List.range st.num_scenario).map (fun s =>
        (episodeSum (st.buffer_rewards.getD s [])
          (st.buffer_dones.getD s [])).getD 0)
        = (List.range st.num_scenario).map (fun s =>
            specEpisodeReturn (st.buffer_rewards.getD s [])
              (st.buffer_dones.getD s [])) := by
      apply List.map_congr_left
      intro s hs
      rw [episodeSum_eq_spec _ _
        ((doneIndices_ne_nil_iff _).mpr (h s (List.mem_range.mp hs)))]
      rfl
    rw [RBState.finish_one_episode, finishAux_ok _ _ hSome, hmap]
  · intro st s hs hnot
    have hnone : episodeSum (st.buffer_rewards.getD s [])
        (st.buffer_dones.getD s []) = none := by
      rw [episodeSum_eq_none_iff]
      by_contra hne
      exact hnot ((doneIndices_ne_nil_iff _).mp hne)
    exact finishAux_err _ _ ⟨s, List.mem_range.mpr hs, hnone⟩

/-- Witness for `finish_one_episode_aggregates` at concrete inputs. -/
theorem finish_one_episode_aggregates_witness :
    epState3.finish_one_episode = Except.ok
      { epState3 with buffer_episode_reward := (epState3.buffer_episode_reward ++
          (List.range epState3.num_scenario).map (fun s =>
            specEpisodeReturn (epState3.buffer_rewards.getD s [])
              (epState3.buffer_dones.getD s []))) } ∧
    (∃ st', (RBState.init Int 1 "eval" 1000).finish_one_episode
      = Except.error (PyErr.indexError, st')) :=
  ⟨(finish_one_episode_aggregates Int).1 epState3 (by decide),
   (finish_one_episode_aggregates Int).2.2 (RBState.init Int 1 "eval" 1000) 0
     (by decide) (by decide)⟩

/-- C10: `finish_one_episode` re-aggregates rather than consumes: a second
call on the state left by a successful first call succeeds and appends the
very same per-scenario episode rewards again, so repeated calls without new
done events grow the EpisodeRecord list with duplicates. -/
theorem finish_one_episode_repeat (α : Type) :
    ∀ (st st₁ : RBState α), st.finish_one_episode = Except.ok st₁ →
    ∃ vs : List Int, vs.length = st.num_scenario ∧
      st₁.buffer_episode_reward = st.buffer_episode_reward ++ vs ∧
      ∃ st₂, st₁.finish_one_episode = Except.ok st₂ ∧
        st₂.buffer_episode_reward = st.buffer_episode_reward ++ vs ++ vs := by
  intro st st₁ h
  have hSome : ∀ s ∈ List.range st.num_scenario,
      (episodeSum (st.buffer_rewards.getD s [])
        (st.buffer_dones.getD s [])).isSome :=
    finishAux_ok_isSome _ _ _ h
  have h1 := finishAux_ok (List.range st.num_scenario) st hSome
  rw [RBState.finish_one_episode] at h
  rw [h1] at h
  have hst₁ := (Except.ok.inj h).symm
  refine ⟨(List.range st.num_scenario).map (fun s =>
    (episodeSum (st.buffer_rewards.getD s [])
      (st.buffer_dones.getD s [])).getD 0), by simp, by rw [hst₁], ?_⟩
  have h2 := finishAux_ok (List.range st₁.num_scenario) st₁ (by
    rw [hst₁]
    exact hSome)
  refine ⟨_, by rw [RBState.finish_one_episode]; exact h2, ?_⟩
  simp only [hst₁, List.append_assoc]

/-- Witness for `finish_one_episode_repeat` at a concrete input. -/
theorem finish_one_episode_repeat_witness :
    ∃ vs : List Int, vs.length = epState3.num_scenario ∧
      epState3f.buffer_episode_reward
        = epState3.buffer_episode_reward ++ vs ∧
      ∃ st₂, epState3f.finish_one_episode = Except.ok st₂ ∧
        st₂.buffer_episode_reward
          = epState3.buffer_episode_reward ++ vs ++ vs :=
  finish_one_episode_repeat Int epState3 epState3f (by
    have : epState3.finish_one_episode.toOption = some epState3f := by decide
    rcases h : epState3.finish_one_episode with e | st'
    · rw [h] at this
      exact Option.noConfusion this
    · rw [h] at this
      have h3 : st' = epState3f := Option.some.inj this
      rw [h3])

lemma pooledBy_length_eq {δ : Type} {ns W : Nat} {m : List (List δ)}
    {f : List (List β)} {g : List (List γ)}
    (h : ∀ s, s < ns → (f.getD s []).length = (g.getD s []).length) :
    (pooledBy ns W m f).length = (pooledBy ns W m g).length := by
  unfold pooledBy
  rw [List.length_flatMap, List.length_flatMap]
  congr 1
  apply List.map_congr_left
  intro s hs
  simp only [Function.comp_apply, List.length_drop,
    h s (List.mem_range.mp hs)]

lemma pooledBy_mem {δ : Type} {ns W : Nat} {m : List (List δ)}
    {f : List (List β)} {x : β} (h : x ∈ pooledBy ns W m f) :
    ∃ s, s < ns ∧ x ∈ (f.getD s []).drop ((m.getD s []).length - W) := by
  unfold pooledBy at h
  obtain ⟨s, hs, hx⟩ := List.mem_flatMap.mp h
  exact ⟨s, List.mem_range.mp hs, hx⟩

lemma mem_map_getD {l : List β} {draws : List Nat} {d : β} {x : β}
    (hx : x ∈ draws.map (fun i => l.getD i d))
    (hdr : ∀ i ∈ draws, i < l.length) : x ∈ l := by
  obtain ⟨i, hi, hix⟩ := List.mem_map.mp hx
  rw [← hix]
  exact getD_mem l i d (hdr i hi)

/-- The five windowed pools built by `ReplayBuffer.sample`, as functions of
the state, with `buffer_rewards` as the measuring field. -/
def rbPool (st : RBState α) (f : RBState α → List (List β)) : List β :=
  pooledBy st.num_scenario (st.buffer_capacity / st.num_scenario)
    st.buffer_rewards (f st)

lemma sample_ok (st : RBState α) (draws : List Nat) (d : α)
    (hA : RBaligned st)
    (hne : (rbPool st RBState.buffer_rewards).length ≠ 0)
    (hdr : ∀ i ∈ draws, i < (rbPool st RBState.buffer_rewards).length) :
    st.sample draws = Except.ok
      { action := if st.mode = "train_agent"
          then draws.map (fun i => (rbPool st RBState.buffer_ego_actions).getD i d)
          else draws.map (fun i => (rbPool st RBState.buffer_scenario_actions).getD i d)
        state := draws.map (fun i => (rbPool st RBState.buffer_obs).getD i d)
        n_state := draws.map (fun i => (rbPool st RBState.buffer_next_obs).getD i d)
        reward := draws.map (fun i => (rbPool st RBState.buffer_rewards).getD i 0)
        done := draws.map (fun i => (rbPool st RBState.buffer_dones).getD i false) } := by
  obtain ⟨l₀, l₁, l₂, l₃, l₄, l₅, l₆, hb⟩ := id hA
  have hEgo : (rbPool st RBState.buffer_ego_actions).length
      = (rbPool st RBState.buffer_rewards).length :=
    pooledBy_length_eq (fun s hs => ((hb s hs).1))
  have hScen : (rbPool st RBState.buffer_scenario_actions).length
      = (rbPool st RBState.buffer_rewards).length :=
    pooledBy_length_eq (fun s hs => ((hb s hs).2.1))
  have hObs : (rbPool st RBState.buffer_obs).length
      = (rbPool st RBState.buffer_rewards).length :=
    pooledBy_length_eq (fun s hs => ((hb s hs).2.2.1))
  have hNobs : (rbPool st RBState.buffer_next_obs).length
      = (rbPool st RBState.buffer_rewards).length :=
    pooledBy_length_eq (fun s hs => ((hb s hs).2.2.2.1))
  have hDon : (rbPool st RBState.buffer_dones).length
      = (rbPool st RBState.buffer_rewards).length :=
    pooledBy_length_eq (fun s hs => ((hb s hs).2.2.2.2))
  rw [RBState.sample]
  simp only [rbPool] at hne hdr hEgo hScen hObs hNobs hDon ⊢
  rw [if_neg hne]
  by_cases hm : st.mode = "train_agent"
  · rw [if_pos hm, if_pos hm,
      npStackIndex_ok _ _ d (by omega) (fun i hi => by have := hdr i hi; omega),
      npStackIndex_ok _ _ d (by omega) (fun i hi => by have := hdr i hi; omega),
      npStackIndex_ok _ _ d (by omega) (fun i hi => by have := hdr i hi; omega),
      npStackIndex_ok _ _ (0 : Int) (by omega) (fun i hi => by have := hdr i hi; omega),
      npStackIndex_ok _ _ false (by omega) (fun i hi => by have := hdr i hi; omega)]
    rfl
  · rw [if_neg hm, if_neg hm,
      npStackIndex_ok _ _ d (by omega) (fun i hi => by have := hdr i hi; omega),
      npStackIndex_ok _ _ d (by omega) (fun i hi => by have := hdr i hi; omega),
      npStackIndex_ok _ _ d (by omega) (fun i hi => by have := hdr i hi; omega),
      npStackIndex_ok _ _ (0 : Int) (by omega) (fun i hi => by have := hdr i hi; omega),
      npStackIndex_ok _ _ false (by omega) (fun i hi => by have := hdr i hi; omega)]
    rfl

/-- The windowed pools built by `ReplayBuffer_Perception.sample`, with
`buffer_loss` as the measuring field. -/
def pPool (st : PState α) (f : PState α → List (List α)) : List α :=
  pooledBy st.num_scenario (st.buffer_capacity / st.num_scenario)
    st.buffer_loss (f st)

lemma psample_ok (st : PState α) (draws : List Nat) (d : α)
    (hA : Paligned st)
    (hne : (pPool st PState.buffer_loss).length ≠ 0)
    (hdr : ∀ i ∈ draws, i < (pPool st PState.buffer_loss).length) :
    st.sample draws = Except.ok
      { label := draws.map (fun i => (pPool st PState.buffer_bbox_label).getD i d)
        image := draws.map (fun i => (pPool st PState.buffer_obs).getD i d)
        loss := draws.map (fun i => (pPool st PState.buffer_loss).getD i d) } := by
  obtain ⟨l₀, l₁, l₂, l₃, l₄, hb⟩ := id hA
  have hLab : (pPool st PState.buffer_bbox_label).length
      = (pPool st PState.buffer_loss).length :=
    pooledBy_length_eq (fun s hs => ((hb s hs).1))
  have hObs : (pPool st PState.buffer_obs).length
      = (pPool st PState.buffer_loss).length :=
    pooledBy_length_eq (fun s hs => ((hb s hs).2.2.2))
  rw [PState.sample]
  simp only [pPool] at hne hdr hLab hObs ⊢
  rw [if_neg hne,
    npStackIndex_ok _ _ d (by omega) (fun i hi => by have := hdr i hi; omega),
    npStackIndex_ok _ _ d (by omega) (fun i hi => by have := hdr i hi; omega),
    npStackIndex_ok _ _ d (by omega) (fun i hi => by have := hdr i hi; omega)]
  rfl

/-- The per-scenario sampling window of one field of a `ReplayBuffer`: the
suffix of the bucket from `start_idx = max(0, len − W)` where `len` is
measured on `buffer_rewards` and `W = buffer_capacity / num_scenario`. -/
def rbWindow (st : RBState α) (f : RBState α → List (List β)) (s : Nat) :
    List β :=
  ((f st).getD s []).drop
    ((st.buffer_rewards.getD s []).length
      - st.buffer_capacity / st.num_scenario)

/-- The per-scenario sampling window of one field of a
`ReplayBuffer_Perception`, measured on `buffer_loss`. -/
def pWindow (st : PState α) (f : PState α → List (List α)) (s : Nat) :
    List α :=
  ((f st).getD s []).drop
    ((st.buffer_loss.getD s []).length
      - st.buffer_capacity / st.num_scenario)

lemma rbPool_eq_flatMap (st : RBState α) (f : RBState α → List (List β)) :
    rbPool st f = (List.range st.num_scenario).flatMap (rbWindow st f) := rfl

lemma pPool_eq_flatMap (st : PState α) (f : PState α → List (List α)) :
    pPool st f = (List.range st.num_scenario).flatMap (pWindow st f) := rfl

/-- C3: `sample` pools, per scenario id, exactly the newest
`W = buffer_capacity / num_scenario` stored entries of every field (the whole
trajectory when shorter) — the window is a suffix of the trajectory of length
`min W len` — concatenates the windows in scenario order, and returns, at
position `k`, the pool entry at the `k`-th drawn index; consequently every
returned value lies in some scenario's newest-`W` window, so entries older
than the newest `W` of their scenario never appear in any sample.  Both
buffer variants. -/
theorem sample_pools_newest_window (α : Type) :
    (∀ (st : RBState α) (draws : List Nat) (d : α),
      RBaligned st →
      (rbPool st RBState.buffer_rewards).length ≠ 0 →
      (∀ i ∈ draws, i < (rbPool st RBState.buffer_rewards).length) →
      (st.sample draws = Except.ok
        { action := if st.mode = "train_agent"
            then draws.map (fun i => (rbPool st RBState.buffer_ego_actions).getD i d)
            else draws.map (fun i => (rbPool st RBState.buffer_scenario_actions).getD i d)
          state := draws.map (fun i => (rbPool st RBState.buffer_obs).getD i d)
          n_state := draws.map (fun i => (rbPool st RBState.buffer_next_obs).getD i d)
          reward := draws.map (fun i => (rbPool st RBState.buffer_rewards).getD i 0)
          done := draws.map (fun i => (rbPool st RBState.buffer_dones).getD i false) }) ∧
      (∀ s, s < st.num_scenario →
        rbWindow st RBState.buffer_rewards s <:+ st.buffer_rewards.getD s [] ∧
        (rbWindow st RBState.buffer_rewards s).length
          = min (st.buffer_capacity / st.num_scenario)
              (st.buffer_rewards.getD s []).length) ∧
      (∀ x ∈ draws.map (fun i => (rbPool st RBState.buffer_rewards).getD i 0),
        ∃ s, s < st.num_scenario ∧ x ∈ rbWindow st RBState.buffer_rewards s) ∧
      (∀ x ∈ draws.map (fun i => (rbPool st RBState.buffer_obs).getD i d),
        ∃ s, s < st.num_scenario ∧ x ∈ rbWindow st RBState.buffer_obs s) ∧
      (∀ x ∈ draws.map (fun i => (rbPool st RBState.buffer_ego_actions).getD i d),
        ∃ s, s < st.num_scenario ∧ x ∈ rbWindow st RBState.buffer_ego_actions s)) ∧
    (∀ (pst : PState α) (draws : List Nat) (d : α),
      Paligned pst →
      (pPool pst PState.buffer_loss).length ≠ 0 →
      (∀ i ∈ draws, i < (pPool pst PState.buffer_loss).length) →
      (pst.sample draws = Except.ok
        { label := draws.map (fun i => (pPool pst PState.buffer_bbox_label).getD i d)
          image := draws.map (fun i => (pPool pst PState.buffer_obs).getD i d)
          loss := draws.map (fun i => (pPool pst PState.buffer_loss).getD i d) }) ∧
      (∀ s, s < pst.num_scenario →
        pWindow pst PState.buffer_loss s <:+ pst.buffer_loss.getD s [] ∧
        (pWindow pst PState.buffer_loss s).length
          = min (pst.buffer_capacity / pst.num_scenario)
              (pst.buffer_loss.getD s []).length) ∧
      (∀ x ∈ draws.map (fun i => (pPool pst PState.buffer_loss).getD i d),
        ∃ s, s < pst.num_scenario ∧ x ∈ pWindow pst PState.buffer_loss s) ∧
      (∀ x ∈ draws.map (fun i => (pPool pst PState.buffer_obs).getD i d),
        ∃ s, s < pst.num_scenario ∧ x ∈ pWindow pst PState.buffer_obs s)) := by
  constructor
  · intro st draws d hA hne hdr
    obtain ⟨l₀, l₁, l₂, l₃, l₄, l₅, l₆, hb⟩ := id hA
    refine ⟨sample_ok st draws d hA hne hdr, ?_, ?_, ?_, ?_⟩
    · intro s hs
      refine ⟨List.drop_suffix _ _, ?_⟩
      rw [rbWindow, List.length_drop]
      generalize st.buffer_capacity / st.num_scenario = W
      omega
    · intro x hx
      have hm := mem_map_getD hx hdr
      rw [rbPool_eq_flatMap] at hm
      obtain ⟨s, hs, hxs⟩ := List.mem_flatMap.mp hm
      exact ⟨s, List.mem_range.mp hs, hxs⟩
    · intro x hx
      have hlen : (rbPool st RBState.buffer_obs).length
          = (rbPool st RBState.buffer_rewards).length :=
        pooledBy_length_eq (fun s hs => ((hb s hs).2.2.1))
      have hm := mem_map_getD hx (fun i hi => by have := hdr i hi; omega)
      rw [rbPool_eq_flatMap] at hm
      obtain ⟨s, hs, hxs⟩ := List.mem_flatMap.mp hm
      exact ⟨s, List.mem_range.mp hs, hxs⟩
    · intro x hx
      have hlen : (rbPool st RBState.buffer_ego_actions).length
          = (rbPool st RBState.buffer_rewards).length :=
        pooledBy_length_eq (fun s hs => ((hb s hs).1))
      have hm := mem_map_getD hx (fun i hi => by have := hdr i hi; omega)
      rw [rbPool_eq_flatMap] at hm
      obtain ⟨s, hs, hxs⟩ := List.mem_flatMap.mp hm
      exact ⟨s, List.mem_range.mp hs, hxs⟩
  · intro pst draws d hA hne hdr
    obtain ⟨l₀, l₁, l₂, l₃, l₄, hb⟩ := id hA
    refine ⟨psample_ok pst draws d hA hne hdr, ?_, ?_, ?_⟩
    · intro s hs
      refine ⟨List.drop_suffix _ _, ?_⟩
      rw [pWindow, List.length_drop]
      generalize pst.buffer_capacity / pst.num_scenario = W
      omega
    · intro x hx
      have hm := mem_map_getD hx hdr
      rw [pPool_eq_flatMap] at hm
      obtain ⟨s, hs, hxs⟩ := List.mem_flatMap.mp hm
      exact ⟨s, List.mem_range.mp hs, hxs⟩
    · intro x hx
      have hlen : (pPool pst PState.buffer_obs).length
          = (pPool pst PState.buffer_loss).length :=
        pooledBy_length_eq (fun s hs => ((hb s hs).2.2.2))
      have hm := mem_map_getD hx (fun i hi => by have := hdr i hi; omega)
      rw [pPool_eq_flatMap] at hm
      obtain ⟨s, hs, hxs⟩ := List.mem_flatMap.mp hm
      exact ⟨s, List.mem_range.mp hs, hxs⟩

/-- Concrete state for the windowing witness: one scenario slot, capacity 2
(so `W = 2`), three stored transitions with rewards 1, 2, 3. -/
def winSt : RBState Int :=
  epStep (epStep (epStep (RBState.init Int 1 "train_agent" 2) 1 false) 2 false)
    3 true

/-- One perception store step on a single-slot buffer, tagging everything
with scenario id 0 and value `v`. -/
def pStep (st : PState Int) (v : Int) : PState Int :=
  resultState (st.store [PercCol.ego [⟨v⟩], PercCol.scen [⟨v⟩],
    PercCol.obs [⟨v⟩], PercCol.info [⟨0, v, v⟩]])

def winPSt : PState Int := pStep (pStep (pStep (PState.init Int 1 "x" 2) 1) 2) 3

/-- Witness for `sample_pools_newest_window` at concrete inputs. -/
theorem sample_pools_newest_window_witness :
    (winSt.sample [0, 1] = Except.ok
      { action := if winSt.mode = "train_agent"
          then [0, 1].map (fun i => (rbPool winSt RBState.buffer_ego_actions).getD i 0)
          else [0, 1].map (fun i => (rbPool winSt RBState.buffer_scenario_actions).getD i 0)
        state := [0, 1].map (fun i => (rbPool winSt RBState.buffer_obs).getD i 0)
        n_state := [0, 1].map (fun i => (rbPool winSt RBState.buffer_next_obs).getD i 0)
        reward := [0, 1].map (fun i => (rbPool winSt RBState.buffer_rewards).getD i 0)
        done := [0, 1].map (fun i => (rbPool winSt RBState.buffer_dones).getD i false) }) ∧
    (winPSt.sample [0, 1] = Except.ok
      { label := [0, 1].map (fun i => (pPool winPSt PState.buffer_bbox_label).getD i 0)
        image := [0, 1].map (fun i => (pPool winPSt PState.buffer_obs).getD i 0)
        loss := [0, 1].map (fun i => (pPool winPSt PState.buffer_loss).getD i 0) }) :=
  ⟨((sample_pools_newest_window Int).1 winSt [0, 1] 0 (by decide) (by decide)
      (by decide)).1,
   ((sample_pools_newest_window Int).2 winPSt [0, 1] 0 (by decide) (by decide)
      (by decide)).1⟩

/-- C6: with a non-empty pool, `sample` returns exactly `batch_size`
(= number of drawn indices) rows per field; under mode `train_agent` the
returned `action` comes from `ego_action`, under any other mode from
`scenario_action` (never both), and for identical stored contents and
identical draws the two modes return identical `state`, `n_state`, `reward`
and `done`. -/
theorem sample_mode_selects_action_source (α : Type) :
    ∀ (st : RBState α) (m : String) (draws : List Nat) (d : α),
      RBaligned st →
      st.mode = "train_agent" → m ≠ "train_agent" →
      (rbPool st RBState.buffer_rewards).length ≠ 0 →
      (∀ i ∈ draws, i < (rbPool st RBState.buffer_rewards).length) →
      ∃ b₁ b₂ : Batch α,
        st.sample draws = Except.ok b₁ ∧
        ({ st with mode := m }).sample draws = Except.ok b₂ ∧
        b₁.action.length = draws.length ∧ b₁.state.length = draws.length ∧
        b₁.n_state.length = draws.length ∧ b₁.reward.length = draws.length ∧
        b₁.done.length = draws.length ∧ b₂.action.length = draws.length ∧
        b₂.state.length = draws.length ∧ b₂.n_state.length = draws.length ∧
        b₂.reward.length = draws.length ∧ b₂.done.length = draws.length ∧
        b₁.state = b₂.state ∧ b₁.n_state = b₂.n_state ∧
        b₁.reward = b₂.reward ∧ b₁.done = b₂.done ∧
        b₁.action = draws.map
          (fun i => (rbPool st RBState.buffer_ego_actions).getD i d) ∧
        b₂.action = draws.map
          (fun i => (rbPool st RBState.buffer_scenario_actions).getD i d) := by
  intro st m draws d hA hmode hm hne hdr
  have h₁ := sample_ok st draws d hA hne hdr
  have h₂ := sample_ok { st with mode := m } draws d hA hne hdr
  refine ⟨_, _, h₁, h₂, by simp [hmode], by simp, by simp, by simp, by simp,
    by simp [hm], by simp, by simp, by simp, by simp, rfl, rfl, rfl, rfl,
    ?_, ?_⟩
  · show (if st.mode = "train_agent"
        then draws.map (fun i => (rbPool st RBState.buffer_ego_actions).getD i d)
        else draws.map (fun i => (rbPool st RBState.buffer_scenario_actions).getD i d))
      = draws.map (fun i => (rbPool st RBState.buffer_ego_actions).getD i d)
    rw [if_pos hmode]
  · show (if ({ st with mode := m }).mode = "train_agent"
        then draws.map (fun i =>
          (rbPool { st with mode := m } RBState.buffer_ego_actions).getD i d)
        else draws.map (fun i =>
          (rbPool { st with mode := m } RBState.buffer_scenario_actions).getD i d))
      = draws.map (fun i => (rbPool st RBState.buffer_scenario_actions).getD i d)
    rw [if_neg hm]
    rfl

/-- Witness for `sample_mode_selects_action_source` at a concrete input. -/
theorem sample_mode_selects_action_source_witness :
    ∃ b₁ b₂ : Batch Int,
      winSt.sample [0, 1] = Except.ok b₁ ∧
      ({ winSt with mode := "eval" }).sample [0, 1] = Except.ok b₂ ∧
      b₁.action.length = [0, 1].length ∧ b₁.state.length = [0, 1].length ∧
      b₁.n_state.length = [0, 1].length ∧ b₁.reward.length = [0, 1].length ∧
      b₁.done.length = [0, 1].length ∧ b₂.action.length = [0, 1].length ∧
      b₂.state.length = [0, 1].length ∧ b₂.n_state.length = [0, 1].length ∧
      b₂.reward.length = [0, 1].length ∧ b₂.done.length = [0, 1].length ∧
      b₁.state = b₂.state ∧ b₁.n_state = b₂.n_state ∧
      b₁.reward = b₂.reward ∧ b₁.done = b₂.done ∧
      b₁.action = [0, 1].map
        (fun i => (rbPool winSt RBState.buffer_ego_actions).getD i 0) ∧
      b₂.action = [0, 1].map
        (fun i => (rbPool winSt RBState.buffer_scenario_actions).getD i 0) :=
  sample_mode_selects_action_source Int winSt "eval" [0, 1] 0 (by decide)
    (by decide) (by decide) (by decide) (by decide)

lemma initExtras_ok (start : Nat) (draws : List Nat) (d : α) :
    ∀ (dict : List (String × List (List α))),
      (∀ kv ∈ dict, (kv.2.drop start) ≠ [] ∧
        ∀ i ∈ draws, i < (kv.2.drop start).flatten.length) →
      initExtras start draws dict = Except.ok
        (dict.map (fun kv => (kv.1,
          draws.map (fun i => (kv.2.drop start).flatten.getD i d)))) := by
  intro dict
  induction dict with
  | nil => intro _; rfl
  | cons kv rest ih =>
    intro h
    obtain ⟨k, col⟩ := kv
    obtain ⟨hne, hcov⟩ := h (k, col) (by simp)
    have hE : (col.drop start).isEmpty = false := by
      rcases hc : col.drop start with _ | _
      · exact absurd hc hne
      · rfl
    simp only [initExtras, hE, Bool.false_eq_true, if_false,
      npIndex_ok _ _ d hcov, ih (fun kv hkv => h kv (by simp [hkv])),
      List.map_cons]

lemma sampleInit_ok (st : RBState α) (draws : List Nat) (d : α)
    (hne : (st.buffer_init_action.drop
      (st.buffer_init_action.length - st.buffer_capacity)).length ≠ 0)
    (h₁ : ∀ i ∈ draws, i < ((st.buffer_init_action.drop
      (st.buffer_init_action.length - st.buffer_capacity)).flatten).length)
    (h₂ : ∀ i ∈ draws, i < (st.buffer_episode_reward.drop
      (st.buffer_init_action.length - st.buffer_capacity)).length)
    (h₃ : ∀ kv ∈ st.buffer_init_additional_dict,
      (kv.2.drop (st.buffer_init_action.length - st.buffer_capacity)) ≠ [] ∧
      ∀ i ∈ draws, i < (kv.2.drop
        (st.buffer_init_action.length - st.buffer_capacity)).flatten.length) :
    st.sample_init draws = Except.ok
      { init_action := draws.map (fun i => ((st.buffer_init_action.drop
          (st.buffer_init_action.length - st.buffer_capacity)).flatten).getD i d)
        episode_reward := draws.map (fun i => (st.buffer_episode_reward.drop
          (st.buffer_init_action.length - st.buffer_capacity)).getD i 0)
        extras := st.buffer_init_additional_dict.map (fun kv => (kv.1,
          draws.map (fun i => (kv.2.drop
            (st.buffer_init_action.length - st.buffer_capacity)).flatten.getD i d))) } := by
  simp only [RBState.sample_init]
  rw [if_neg hne, npIndex_ok _ _ d h₁, npIndex_ok _ _ (0 : Int) h₂,
    initExtras_ok _ _ d _ h₃]
  rfl

deriving instance DecidableEq for Except

/-- A non-empty buffer on which `sample_init` nevertheless fails: one init
record stored, no completed episode yet, so indexing the episode-reward
window raises `IndexError`. -/
def c5st : RBState Int := (RBState.init Int 1 "x" 5).store_init 0 [5] none

/-- Counterexample to C5 as stated: the state is non-empty (one InitRecord,
running count 1), yet `sample_init` does not return the drawn rows — it
fails with an `IndexError` because the window-aligned episode-reward list is
shorter than the drawn index range. -/
theorem sample_init_nonempty_can_fail :
    c5st.buffer_init_action.length = 1 ∧ c5st.init_buffer_len = 1 ∧
    c5st.sample_init [0] = Except.error PyErr.indexError := by decide

/-- C5 (amended): `store_init` appends one record per call and adds the row
count of `init_action` to the running count; `sample_init` windows by record
count — window start `max(0, records − buffer_capacity)`, keeping the newest
`min(buffer_capacity, records)` records as a suffix — draws indices from the
record window, and returns the rows of the concatenated window and the
window-aligned episode rewards at those indices, but only when every drawn
index is also in range for the concatenated rows, the episode-reward window
and every registered extra column; otherwise it raises instead of
returning. -/
theorem sample_init_window_characterization (α : Type) :
    ∀ (st : RBState α) (draws : List Nat) (d : α),
      (st.buffer_init_action.drop
        (st.buffer_init_action.length - st.buffer_capacity)) ≠ [] →
      (∀ i ∈ draws, i < (st.buffer_init_action.drop
        (st.buffer_init_action.length - st.buffer_capacity)).length) →
      (∀ i ∈ draws, i < ((st.buffer_init_action.drop
        (st.buffer_init_action.length - st.buffer_capacity)).flatten).length) →
      (∀ i ∈ draws, i < (st.buffer_episode_reward.drop
        (st.buffer_init_action.length - st.buffer_capacity)).length) →
      (∀ kv ∈ st.buffer_init_additional_dict,
        (kv.2.drop (st.buffer_init_action.length - st.buffer_capacity)) ≠ [] ∧
        ∀ i ∈ draws, i < (kv.2.drop
          (st.buffer_init_action.length - st.buffer_capacity)).flatten.length) →
      st.sample_init draws = Except.ok
        { init_action := draws.map (fun i => ((st.buffer_init_action.drop
            (st.buffer_init_action.length - st.buffer_capacity)).flatten).getD i d)
          episode_reward := draws.map (fun i => (st.buffer_episode_reward.drop
            (st.buffer_init_action.length - st.buffer_capacity)).getD i 0)
          extras := st.buffer_init_additional_dict.map (fun kv => (kv.1,
            draws.map (fun i => (kv.2.drop
              (st.buffer_init_action.length - st.buffer_capacity)).flatten.getD i d))) } ∧
      (st.buffer_init_action.drop
        (st.buffer_init_action.length - st.buffer_capacity))
          <:+ st.buffer_init_action ∧
      (st.buffer_init_action.drop
        (st.buffer_init_action.length - st.buffer_capacity)).length
        = min st.buffer_capacity st.buffer_init_action.length := by
  intro st draws d hne hrec hrow hep hex
  have hne' : (st.buffer_init_action.drop
      (st.buffer_init_action.length - st.buffer_capacity)).length ≠ 0 := by
    intro hc
    exact hne (List.length_eq_zero.mp hc)
  refine ⟨sampleInit_ok st draws d hne' hrow hep hex, List.drop_suffix _ _, ?_⟩
  rw [List.length_drop]
  omega

/-- Witness state for the `sample_init` window characterization: one init
record with one row and one registered extra column, and one completed
episode reward. -/
def c5wSt : RBState Int :=
  { (RBState.init Int 1 "x" 5).store_init 10 [5] (some [("k", [7])]) with
    buffer_episode_reward := [42] }

/-- Witness for `sample_init_window_characterization` at a concrete input. -/
theorem sample_init_window_characterization_witness :
    c5wSt.sample_init [0] = Except.ok
      { init_action := [0].map (fun i => ((c5wSt.buffer_init_action.drop
          (c5wSt.buffer_init_action.length - c5wSt.buffer_capacity)).flatten).getD i 0)
        episode_reward := [0].map (fun i => (c5wSt.buffer_episode_reward.drop
          (c5wSt.buffer_init_action.length - c5wSt.buffer_capacity)).getD i 0)
        extras := c5wSt.buffer_init_additional_dict.map (fun kv => (kv.1,
          [0].map (fun i => (kv.2.drop
            (c5wSt.buffer_init_action.length - c5wSt.buffer_capacity)).flatten.getD i 0))) } :=
  (sample_init_window_characterization Int c5wSt [0] 0 (by decide) (by decide)
    (by decide) (by decide) (by decide)).1

/-- A buffer with one stored InitRecord but `buffer_capacity = 0`: the record
window is empty although the total is non-zero. -/
def c8st : RBState Int := (RBState.init Int 1 "x" 0).store_init 0 [5] none

/-- Counterexample to C8 as stated: `sample_init` fails with the empty-pool
`ValueError` (the spec's `EmptyBufferError`) although the total number of
InitRecords is 1, not 0 — the failure condition is the emptiness of the
windowed record list, not of the whole store. -/
theorem sample_init_error_not_iff_total_zero :
    c8st.buffer_init_action.length = 1 ∧
    c8st.sample_init [0] = Except.error PyErr.valueError := by decide

/-- C8 (amended): `sample` fails with the empty-pool `ValueError` (the
spec's `EmptyBufferError`) exactly when the pooled length is zero — it
errors whenever the pool is empty, and succeeds on an aligned state whenever
the pool is non-empty and the drawn indices are in the pool's range.
`sample_init` raises that error exactly when the *windowed record list* is
empty, which happens iff the total is zero or `buffer_capacity` is zero; and
with records present it returns a batch only under the row, episode-reward
and extra-column coverage conditions of the `sample_init` window
characterization. -/
theorem empty_pool_errors (α : Type) :
    (∀ (st : RBState α) (draws : List Nat),
      (rbPool st RBState.buffer_rewards).length = 0 →
      st.sample draws = Except.error PyErr.valueError) ∧
    (∀ (st : RBState α) (draws : List Nat) (d : α),
      RBaligned st →
      (rbPool st RBState.buffer_rewards).length ≠ 0 →
      (∀ i ∈ draws, i < (rbPool st RBState.buffer_rewards).length) →
      ∃ b, st.sample draws = Except.ok b) ∧
    (∀ (st : RBState α) (draws : List Nat),
      (st.buffer_init_action.drop
        (st.buffer_init_action.length - st.buffer_capacity)).length = 0 →
      st.sample_init draws = Except.error PyErr.valueError) ∧
    (∀ st : RBState α,
      (st.buffer_init_action.drop
        (st.buffer_init_action.length - st.buffer_capacity)).length = 0
      ↔ (st.buffer_init_action.length = 0 ∨ st.buffer_capacity = 0)) ∧
    (∀ (st : RBState α) (draws : List Nat) (d : α),
      (st.buffer_init_action.drop
        (st.buffer_init_action.length - st.buffer_capacity)).length ≠ 0 →
      (∀ i ∈ draws, i < ((st.buffer_init_action.drop
        (st.buffer_init_action.length - st.buffer_capacity)).flatten).length) →
      (∀ i ∈ draws, i < (st.buffer_episode_reward.drop
        (st.buffer_init_action.length - st.buffer_capacity)).length) →
      (∀ kv ∈ st.buffer_init_additional_dict,
        (kv.2.drop (st.buffer_init_action.length - st.buffer_capacity)) ≠ [] ∧
        ∀ i ∈ draws, i < (kv.2.drop
          (st.buffer_init_action.length - st.buffer_capacity)).flatten.length) →
      ∃ b, st.sample_init draws = Except.ok b) := by
  refine ⟨?_, ?_, ?_, ?_, ?_⟩
  · intro st draws h
    simp only [rbPool] at h
    rw [RBState.sample]
    simp only [h, if_pos]
  · intro st draws d hA hne hdr
    exact ⟨_, sample_ok st draws d hA hne hdr⟩
  · intro st draws h
    simp only [RBState.sample_init]
    rw [if_pos h]
  · intro st
    rw [List.length_drop]
    omega
  · intro st draws d hne h₁ h₂ h₃
    exact ⟨_, sampleInit_ok st draws d hne h₁ h₂ h₃⟩

/-- Witness for `empty_pool_errors` at concrete inputs. -/
theorem empty_pool_errors_witness :
    (RBState.init Int 1 "x" 10).sample [0]
      = Except.error PyErr.valueError ∧
    (∃ b, winSt.sample [0, 1] = Except.ok b) ∧
    c8st.sample_init [0] = Except.error PyErr.valueError ∧
    (∃ b, c5wSt.sample_init [0] = Except.ok b) :=
  ⟨(empty_pool_errors Int).1 (RBState.init Int 1 "x" 10) [0] (by decide),
   (empty_pool_errors Int).2.1 winSt [0, 1] 0 (by decide) (by decide) (by decide),
   (empty_pool_errors Int).2.2.1 c8st [0] (by decide),
   (empty_pool_errors Int).2.2.2.2 c5wSt [0] 0 (by decide) (by decide)
     (by decide) (by decide)⟩

/-- The state after one store call whose single entry is tagged with scenario
id 1 while sitting at loop position 0. -/
def c4Res : RBState Int :=
  resultState ((RBState.init Int 2 "x" 10).store [100] [200] [300] [400] [7]
    [false] [⟨1, [("cost", 9)]⟩])

/-- C4: the extras of a stored entry do not go to the bucket selected by the
entry's tagged scenario id: the source indexes
`self.buffer_additional_dict[s_i]` by the loop *position* (line 81–83) while
all six main fields index by the tagged `sid` (lines 70–75).  Storing one
entry at position 0 tagged scenario id 1 puts the main fields into bucket 1
but the `cost` column into bucket 0, so bucket 1's extra columns do not track
bucket 1's main field length. -/
theorem store_extras_use_position_not_scenario_id :
    ((RBState.init Int 2 "x" 10).store [100] [200] [300] [400] [7] [false]
      [⟨1, [("cost", 9)]⟩]).toOption.isSome = true ∧
    c4Res.buffer_rewards.getD 1 [] = [7] ∧
    (c4Res.buffer_rewards.getD 0 []).length = 0 ∧
    c4Res.buffer_additional_dict.getD 1 [] = [] ∧
    c4Res.buffer_additional_dict.getD 0 [] = [("cost", [9])] := by decide

lemma bAppend_eq_some {bk b : List (List γ)} {sid : Nat} {v : γ}
    (h : bAppend bk sid v = some b) :
    sid < bk.length ∧ b = bk.set sid (bk.getD sid [] ++ [v]) := by
  unfold bAppend at h
  split at h
  · cases h
    exact ⟨by assumption, rfl⟩
  · exact Option.noConfusion h

lemma extrasStep_isSome {bufAdd : List (List (String × List α))} {pos : Nat}
    {extra : List (String × α)}
    (h : extra = [] ∨ pos < bufAdd.length) :
    ∃ bA, extrasStep bufAdd pos extra = some bA := by
  unfold extrasStep
  rcases hx : extra with _ | ⟨kv, rest⟩
  · exact ⟨bufAdd, rfl⟩
  · rcases h with he | hp
    · rw [hx] at he
      exact List.noConfusion he
    · rw [if_pos hp]
      exact ⟨_, rfl⟩

lemma forall_lt_iff_le_len {n m : Nat} : (∀ k, k < n → k < m) ↔ n ≤ m := by
  constructor
  · intro h
    rcases Nat.eq_zero_or_pos n with h0 | h0
    · omega
    · have := h (n - 1) (by omega)
      omega
  · intro h k hk
    omega

lemma storeOne_isOk_iff {ego scen obs nobs : List α} {rew : List Int}
    {don : List Bool} {st : RBState α} {i : Nat} {t : Tag α}
    (h₀ : t.scenario_id < st.buffer_ego_actions.length)
    (h₁ : t.scenario_id < st.buffer_scenario_actions.length)
    (h₂ : t.scenario_id < st.buffer_obs.length)
    (h₃ : t.scenario_id < st.buffer_next_obs.length)
    (h₄ : t.scenario_id < st.buffer_rewards.length)
    (h₅ : t.scenario_id < st.buffer_dones.length)
    (hE : t.extra = [] ∨ i < st.buffer_additional_dict.length) :
    (∃ st', storeOne ego scen obs nobs rew don st i t = Except.ok st') ↔
      (i < ego.length ∧ i < scen.length ∧ i < obs.length ∧
        i < nobs.length ∧ i < rew.length ∧ i < don.length) := by
  rcases hg₀ : ego.get? i with _ | a
  · have := List.get?_eq_none.mp hg₀
    simp only [storeOne, hg₀]
    constructor
    · rintro ⟨st', hok⟩
      exact Except.noConfusion hok
    · intro hc
      omega
  · have ha : i < ego.length := lt_of_get?_eq_some hg₀
    rcases hg₁ : scen.get? i with _ | b
    · have := List.get?_eq_none.mp hg₁
      simp only [storeOne, hg₀, bAppend_some _ _ _ h₀, hg₁]
      constructor
      · rintro ⟨st', hok⟩
        exact Except.noConfusion hok
      · intro hc
        omega
    · have hb : i < scen.length := lt_of_get?_eq_some hg₁
      rcases hg₂ : obs.get? i with _ | o
      · have := List.get?_eq_none.mp hg₂
        simp only [storeOne, hg₀, bAppend_some _ _ _ h₀, hg₁,
          bAppend_some _ _ _ h₁, hg₂]
        constructor
        · rintro ⟨st', hok⟩
          exact Except.noConfusion hok
        · intro hc
          omega
      · have ho : i < obs.length := lt_of_get?_eq_some hg₂
        rcases hg₃ : nobs.get? i with _ | n
        · have := List.get?_eq_none.mp hg₃
          simp only [storeOne, hg₀, bAppend_some _ _ _ h₀, hg₁,
            bAppend_some _ _ _ h₁, hg₂, bAppend_some _ _ _ h₂, hg₃]
          constructor
          · rintro ⟨st', hok⟩
            exact Except.noConfusion hok
          · intro hc
            omega
        · have hn : i < nobs.length := lt_of_get?_eq_some hg₃
          rcases hg₄ : rew.get? i with _ | r
          · have := List.get?_eq_none.mp hg₄
            simp only [storeOne, hg₀, bAppend_some _ _ _ h₀, hg₁,
              bAppend_some _ _ _ h₁, hg₂, bAppend_some _ _ _ h₂, hg₃,
              bAppend_some _ _ _ h₃, hg₄]
            constructor
            · rintro ⟨st', hok⟩
              exact Except.noConfusion hok
            · intro hc
              omega
          · have hr : i < rew.length := lt_of_get?_eq_some hg₄
            rcases hg₅ : don.get? i with _ | dn
            · have := List.get?_eq_none.mp hg₅
              simp only [storeOne, hg₀, bAppend_some _ _ _ h₀, hg₁,
                bAppend_some _ _ _ h₁, hg₂, bAppend_some _ _ _ h₂, hg₃,
                bAppend_some _ _ _ h₃, hg₄, bAppend_some _ _ _ h₄, hg₅]
              constructor
              · rintro ⟨st', hok⟩
                exact Except.noConfusion hok
              · intro hc
                omega
            · have hd : i < don.length := lt_of_get?_eq_some hg₅
              have heq := storeOne_eq hg₀ hg₁ hg₂ hg₃ hg₄ hg₅ h₀ h₁ h₂ h₃ h₄ h₅
              obtain ⟨bA, hbA⟩ := @extrasStep_isSome α
                st.buffer_additional_dict i t.extra hE
              rw [heq, hbA]
              exact ⟨fun _ => ⟨ha, hb, ho, hn, hr, hd⟩, fun _ => ⟨_, rfl⟩⟩

lemma storeAux_isOk_iff {ego scen obs nobs : List α} {rew : List Int}
    {don : List Bool} :
    ∀ (rest : List (Tag α)) (st : RBState α) (i : Nat),
      RBaligned st →
      (∀ t ∈ rest, t.scenario_id < st.num_scenario) →
      (∀ k, k < rest.length → i + k < st.num_scenario) →
      ((∃ st', storeAux ego scen obs nobs rew don st i rest = Except.ok st') ↔
        (∀ k, k < rest.length →
          i + k < ego.length ∧ i + k < scen.length ∧ i + k < obs.length ∧
          i + k < nobs.length ∧ i + k < rew.length ∧ i + k < don.length)) := by
  intro rest
  induction rest with
  | nil =>
    intro st i _ _ _
    simp [storeAux]
  | cons t rest ih =>
    intro st i hA hsid hpos
    have hts : t.scenario_id < st.num_scenario := hsid t (by simp)
    have hpos0 : i < st.num_scenario := by
      have := hpos 0 (by simp)
      omega
    obtain ⟨l₀, l₁, l₂, l₃, l₄, l₅, l₆, -⟩ := id hA
    have hone := @storeOne_isOk_iff α ego scen obs nobs rew don st i t
      (l₀.symm ▸ hts) (l₁.symm ▸ hts) (l₂.symm ▸ hts) (l₃.symm ▸ hts)
      (l₄.symm ▸ hts) (l₅.symm ▸ hts) (Or.inr (l₆.symm ▸ hpos0))
    by_cases hsix : i < ego.length ∧ i < scen.length ∧ i < obs.length ∧
        i < nobs.length ∧ i < rew.length ∧ i < don.length
    · obtain ⟨ha, hb, ho, hn, hr, hd⟩ := hsix
      obtain ⟨a, e₀⟩ := get?_isSome_of_lt _ _ ha
      obtain ⟨b, e₁⟩ := get?_isSome_of_lt _ _ hb
      obtain ⟨o, e₂⟩ := get?_isSome_of_lt _ _ ho
      obtain ⟨n, e₃⟩ := get?_isSome_of_lt _ _ hn
      obtain ⟨r, e₄⟩ := get?_isSome_of_lt _ _ hr
      obtain ⟨dn, e₅⟩ := get?_isSome_of_lt _ _ hd
      have heq := storeOne_eq e₀ e₁ e₂ e₃ e₄ e₅ (l₀.symm ▸ hts) (l₁.symm ▸ hts)
        (l₂.symm ▸ hts) (l₃.symm ▸ hts) (l₄.symm ▸ hts) (l₅.symm ▸ hts)
      obtain ⟨bA, hbA⟩ := @extrasStep_isSome α st.buffer_additional_dict i
        t.extra (Or.inr (l₆.symm ▸ hpos0))
      simp only [storeAux, heq, hbA]
      have hbAl : bA.length = st.num_scenario :=
        (extrasStep_length hbA).trans l₆
      have hA' : RBaligned
          { appendSix st t.scenario_id a b o n r dn with
            buffer_additional_dict := bA } :=
        RBaligned_setAdd (RBaligned_appendSix hA hts) hbAl
      rw [ih { appendSix st t.scenario_id a b o n r dn with
          buffer_additional_dict := bA } (i + 1) hA'
        (fun t' ht' => hsid t' (by simp [ht']))
        (fun k hk => by
          show i + 1 + k < st.num_scenario
          have := hpos (k + 1) (by simpa using hk)
          omega)]
      constructor
      · intro hAll k hk
        rcases Nat.eq_zero_or_pos k with h0 | h0
        · subst h0
          exact ⟨by omega, by omega, by omega, by omega, by omega, by omega⟩
        · have := hAll (k - 1) (by simp at hk; omega)
          exact ⟨by omega, by omega, by omega, by omega, by omega, by omega⟩
      · intro hAll k hk
        have := hAll (k + 1) (by simp; omega)
        exact ⟨by omega, by omega, by omega, by omega, by omega, by omega⟩
    · rcases hso : storeOne ego scen obs nobs rew don st i t with e | st₁
      · simp only [storeAux, hso]
        constructor
        · rintro ⟨st', hc⟩
          exact Except.noConfusion hc
        · intro hAll
          have := hAll 0 (by simp)
          exact absurd ⟨by omega, by omega, by omega, by omega, by omega,
            by omega⟩ hsix
      · exact absurd (hone.mp ⟨st₁, hso⟩) hsix

lemma pStoreAux_ok {ego : List (PercEgo α)} {scen : List (PercScen α)}
    {obs : List (PercObs α)} :
    ∀ (rest : List (PercInfo α)) (st : PState α) (i : Nat),
      Paligned st →
      (∀ f ∈ rest, f.scenario_id < st.num_scenario) →
      (∀ k, k < rest.length →
        i + k < ego.length ∧ i + k < scen.length ∧ i + k < obs.length) →
      ∃ st', pStoreAux ego scen obs st i rest = Except.ok st' := by
  intro rest
  induction rest with
  | nil =>
    intro st i _ _ _
    exact ⟨st, rfl⟩
  | cons info rest ih =>
    intro st i hA hsid hlen
    obtain ⟨hi₀, hi₁, hi₂⟩ := hlen 0 (by simp)
    rw [Nat.add_zero] at hi₀ hi₁ hi₂
    obtain ⟨e, e₀⟩ := get?_isSome_of_lt _ _ hi₀
    obtain ⟨sc, e₁⟩ := get?_isSome_of_lt _ _ hi₁
    obtain ⟨ob, e₂⟩ := get?_isSome_of_lt _ _ hi₂
    have hts : info.scenario_id < st.num_scenario := hsid info (by simp)
    obtain ⟨l₀, l₁, l₂, l₃, l₄, -⟩ := id hA
    have heq := pStoreOne_eq e₀ e₁ e₂ (l₁.symm ▸ hts) (l₂.symm ▸ hts)
      (l₃.symm ▸ hts) (l₀.symm ▸ hts) (l₄.symm ▸ hts)
    simp only [pStoreAux, heq]
    exact ih _ (i + 1) (Paligned_appendFive hA hts)
      (fun f hf => hsid f (by simp [hf]))
      (fun k hk => by
        obtain ⟨m₀, m₁, m₂⟩ := hlen (k + 1) (by simpa using hk)
        exact ⟨by omega, by omega, by omega⟩)

/-- Counterexample to C7 as stated: a store call whose batch-field lengths
disagree with the tags list (fields of lengths 2 and 1, empty tags) succeeds
instead of failing with `ShapeMismatch`: `ReplayBuffer.store` performs no
length validation at all. -/
theorem store_length_mismatch_not_checked :
    ((RBState.init Int 2 "x" 10).store [1, 1] [1] [1] [1] [1] [true]
      []).toOption.isSome = true := by decide

/-- C7 (amended): `ReplayBuffer.store` does not validate field lengths.  On
an aligned state with in-range scenario ids and at most `num_scenario`
tagged entries, it succeeds exactly when the tags list is no longer than
every batch field — even when the field lengths disagree with each other or
with the tags list — and it fails (with the `IndexError` of an out-of-range
position) exactly when the tags list is longer than some field.
`ReplayBuffer_Perception.store` fails with its arity `AssertionError` (the
spec's `ShapeMismatch`) whenever `data_list` does not have exactly four
entries, and succeeds on well-shaped four-field input. -/
theorem store_shape_check_characterization (α : Type) :
    (∀ (st : RBState α) (ego scen obs nobs : List α) (rew : List Int)
        (don : List Bool) (tags : List (Tag α)),
      RBaligned st →
      (∀ t ∈ tags, t.scenario_id < st.num_scenario) →
      tags.length ≤ st.num_scenario →
      ((∃ st', st.store ego scen obs nobs rew don tags = Except.ok st') ↔
        (tags.length ≤ ego.length ∧ tags.length ≤ scen.length ∧
         tags.length ≤ obs.length ∧ tags.length ≤ nobs.length ∧
         tags.length ≤ rew.length ∧ tags.length ≤ don.length))) ∧
    (∀ (pst : PState α) (dataList : List (PercCol α)),
      dataList.length ≠ 4 →
      pst.store dataList = Except.error (PyErr.assertError, pst)) ∧
    (∀ (pst : PState α) (ea : List (PercEgo α)) (sa : List (PercScen α))
        (ob : List (PercObs α)) (inf : List (PercInfo α)),
      Paligned pst →
      ea.length = inf.length → sa.length = inf.length →
      ob.length = inf.length →
      (∀ f ∈ inf, f.scenario_id < pst.num_scenario) →
      ∃ pst', pst.store [PercCol.ego ea, PercCol.scen sa, PercCol.obs ob,
        PercCol.info inf] = Except.ok pst') := by
  refine ⟨?_, ?_, ?_⟩
  · intro st ego scen obs nobs rew don tags hA hsid hlen
    rw [RBState.store]
    rw [storeAux_isOk_iff tags
      { st with buffer_len := st.buffer_len + rew.length } 0 hA hsid
      (fun k hk => by
        show 0 + k < st.num_scenario
        omega)]
    constructor
    · intro h
      refine ⟨?_, ?_, ?_, ?_, ?_, ?_⟩ <;>
        · rw [← forall_lt_iff_le_len]
          intro k hk
          have := h k hk
          omega
    · intro h k hk
      exact ⟨by omega, by omega, by omega, by omega, by omega, by omega⟩
  · intro pst dataList h
    simp only [PState.store, if_pos h]
  · intro pst ea sa ob inf hA h₀ h₁ h₂ hsid
    simp only [PState.store, List.length_cons, List.length_nil]
    norm_num
    exact pStoreAux_ok inf
      { pst with buffer_len := pst.buffer_len + inf.length } 0 hA hsid
      (fun k hk => ⟨by omega, by omega, by omega⟩)

/-- Witness for `store_shape_check_characterization` at concrete inputs. -/
theorem store_shape_check_characterization_witness :
    ((∃ st', (RBState.init Int 2 "x" 10).store [1, 2] [3, 4] [5, 6] [7, 8]
        [9, 10] [true, false] [⟨0, []⟩, ⟨1, []⟩] = Except.ok st') ↔
      (2 ≤ 2 ∧ 2 ≤ 2 ∧ 2 ≤ 2 ∧ 2 ≤ 2 ∧ 2 ≤ 2 ∧ 2 ≤ 2)) ∧
    (PState.init Int 2 "x" 10).store [PercCol.ego [], PercCol.scen [],
        PercCol.info []]
      = Except.error (PyErr.assertError, PState.init Int 2 "x" 10) ∧
    (∃ pst', (PState.init Int 2 "x" 10).store [PercCol.ego [⟨1⟩],
        PercCol.scen [⟨2⟩], PercCol.obs [⟨3⟩], PercCol.info [⟨1, 4, 5⟩]]
      = Except.ok pst') :=
  ⟨(store_shape_check_characterization Int).1 (RBState.init Int 2 "x" 10)
      [1, 2] [3, 4] [5, 6] [7, 8] [9, 10] [true, false] [⟨0, []⟩, ⟨1, []⟩]
      (by decide) (by decide) (by decide),
   (store_shape_check_characterization Int).2.1 (PState.init Int 2 "x" 10)
      [PercCol.ego [], PercCol.scen [], PercCol.info []] (by decide),
   (store_shape_check_characterization Int).2.2 (PState.init Int 2 "x" 10)
      [⟨1⟩] [⟨2⟩] [⟨3⟩] [⟨1, 4, 5⟩] (by decide) rfl rfl rfl (by decide)⟩

/-- `st'` extends `st` by appends only: configuration fields and
`buffer_len` unchanged, each per-scenario bucket of the six transition
fields extended (the old bucket is a prefix of the new one), each extra
column extended, and the init-side fields untouched. -/
def RBext (st st' : RBState α) : Prop :=
  st'.mode = st.mode ∧ st'.buffer_capacity = st.buffer_capacity ∧
  st'.num_scenario = st.num_scenario ∧ st'.buffer_len = st.buffer_len ∧
  (∀ s, st.buffer_ego_actions.getD s [] <+: st'.buffer_ego_actions.getD s []) ∧
  (∀ s, st.buffer_scenario_actions.getD s []
    <+: st'.buffer_scenario_actions.getD s []) ∧
  (∀ s, st.buffer_obs.getD s [] <+: st'.buffer_obs.getD s []) ∧
  (∀ s, st.buffer_next_obs.getD s [] <+: st'.buffer_next_obs.getD s []) ∧
  (∀ s, st.buffer_rewards.getD s [] <+: st'.buffer_rewards.getD s []) ∧
  (∀ s, st.buffer_dones.getD s [] <+: st'.buffer_dones.getD s []) ∧
  (∀ s k, lookupD (st.buffer_additional_dict.getD s []) k
    <+: lookupD (st'.buffer_additional_dict.getD s []) k) ∧
  st'.buffer_static_obs = st.buffer_static_obs ∧
  st'.buffer_init_action = st.buffer_init_action ∧
  st'.buffer_episode_reward = st.buffer_episode_reward ∧
  st'.buffer_init_additional_dict = st.buffer_init_additional_dict ∧
  st'.init_buffer_len = st.init_buffer_len

lemma RBext.refl (st : RBState α) : RBext st st :=
  ⟨rfl, rfl, rfl, rfl, fun _ => List.prefix_rfl, fun _ => List.prefix_rfl,
   fun _ => List.prefix_rfl, fun _ => List.prefix_rfl,
   fun _ => List.prefix_rfl, fun _ => List.prefix_rfl,
   fun _ _ => List.prefix_rfl, rfl, rfl, rfl, rfl, rfl⟩

lemma RBext.trans {a b c : RBState α} (h₁ : RBext a b) (h₂ : RBext b c) :
    RBext a c := by
  obtain ⟨m₁, c₁, n₁, l₁, e₁, s₁, o₁, x₁, r₁, d₁, a₁, t₁, i₁, p₁, q₁, z₁⟩ := h₁
  obtain ⟨m₂, c₂, n₂, l₂, e₂, s₂, o₂, x₂, r₂, d₂, a₂, t₂, i₂, p₂, q₂, z₂⟩ := h₂
  exact ⟨m₂.trans m₁, c₂.trans c₁, n₂.trans n₁, l₂.trans l₁,
    fun s => (e₁ s).trans (e₂ s), fun s => (s₁ s).trans (s₂ s),
    fun s => (o₁ s).trans (o₂ s), fun s => (x₁ s).trans (x₂ s),
    fun s => (r₁ s).trans (r₂ s), fun s => (d₁ s).trans (d₂ s),
    fun s k => (a₁ s k).trans (a₂ s k), t₂.trans t₁, i₂.trans i₁,
    p₂.trans p₁, q₂.trans q₁, z₂.trans z₁⟩

lemma getD_prefix_set_append {bk : List (List γ)} {sid : Nat} {v : γ}
    (h : sid < bk.length) (s : Nat) :
    bk.getD s [] <+: (bk.set sid (bk.getD sid [] ++ [v])).getD s [] := by
  by_cases hs : sid = s
  · subst hs
    rw [getD_set_self _ _ _ _ h]
    exact List.prefix_append _ _
  · rw [getD_set_ne _ _ _ _ _ hs]

lemma RBext_set_ego {st : RBState α} {sid : Nat} {v : α}
    (h : sid < st.buffer_ego_actions.length) :
    RBext st { st with buffer_ego_actions :=
      st.buffer_ego_actions.set sid (st.buffer_ego_actions.getD sid [] ++ [v]) } :=
  ⟨rfl, rfl, rfl, rfl, getD_prefix_set_append h, fun _ => List.prefix_rfl,
   fun _ => List.prefix_rfl, fun _ => List.prefix_rfl,
   fun _ => List.prefix_rfl, fun _ => List.prefix_rfl,
   fun _ _ => List.prefix_rfl, rfl, rfl, rfl, rfl, rfl⟩

lemma RBext_set_scen {st : RBState α} {sid : Nat} {v : α}
    (h : sid < st.buffer_scenario_actions.length) :
    RBext st { st with buffer_scenario_actions :=
      (st.buffer_scenario_actions.set sid
        (st.buffer_scenario_actions.getD sid [] ++ [v])) } :=
  ⟨rfl, rfl, rfl, rfl, fun _ => List.prefix_rfl, getD_prefix_set_append h,
   fun _ => List.prefix_rfl, fun _ => List.prefix_rfl,
   fun _ => List.prefix_rfl, fun _ => List.prefix_rfl,
   fun _ _ => List.prefix_rfl, rfl, rfl, rfl, rfl, rfl⟩

lemma RBext_set_obs {st : RBState α} {sid : Nat} {v : α}
    (h : sid < st.buffer_obs.length) :
    RBext st { st with buffer_obs :=
      st.buffer_obs.set sid (st.buffer_obs.getD sid [] ++ [v]) } :=
  ⟨rfl, rfl, rfl, rfl, fun _ => List.prefix_rfl, fun _ => List.prefix_rfl,
   getD_prefix_set_append h, fun _ => List.prefix_rfl,
   fun _ => List.prefix_rfl, fun _ => List.prefix_rfl,
   fun _ _ => List.prefix_rfl, rfl, rfl, rfl, rfl, rfl⟩

lemma RBext_set_nobs {st : RBState α} {sid : Nat} {v : α}
    (h : sid < st.buffer_next_obs.length) :
    RBext st { st with buffer_next_obs :=
      st.buffer_next_obs.set sid (st.buffer_next_obs.getD sid [] ++ [v]) } :=
  ⟨rfl, rfl, rfl, rfl, fun _ => List.prefix_rfl, fun _ => List.prefix_rfl,
   fun _ => List.prefix_rfl, getD_prefix_set_append h,
   fun _ => List.prefix_rfl, fun _ => List.prefix_rfl,
   fun _ _ => List.prefix_rfl, rfl, rfl, rfl, rfl, rfl⟩

lemma RBext_set_rew {st : RBState α} {sid : Nat} {v : Int}
    (h : sid < st.buffer_rewards.length) :
    RBext st { st with buffer_rewards :=
      st.buffer_rewards.set sid (st.buffer_rewards.getD sid [] ++ [v]) } :=
  ⟨rfl, rfl, rfl, rfl, fun _ => List.prefix_rfl, fun _ => List.prefix_rfl,
   fun _ => List.prefix_rfl, fun _ => List.prefix_rfl,
   getD_prefix_set_append h, fun _ => List.prefix_rfl,
   fun _ _ => List.prefix_rfl, rfl, rfl, rfl, rfl, rfl⟩

lemma RBext_set_don {st : RBState α} {sid : Nat} {v : Bool}
    (h : sid < st.buffer_dones.length) :
    RBext st { st with buffer_dones :=
      st.buffer_dones.set sid (st.buffer_dones.getD sid [] ++ [v]) } :=
  ⟨rfl, rfl, rfl, rfl, fun _ => List.prefix_rfl, fun _ => List.prefix_rfl,
   fun _ => List.prefix_rfl, fun _ => List.prefix_rfl,
   fun _ => List.prefix_rfl, getD_prefix_set_append h,
   fun _ _ => List.prefix_rfl, rfl, rfl, rfl, rfl, rfl⟩

lemma lookupD_foldl_extends (l : List (String × α)) :
    ∀ (d : List (String × List α)) (k : String),
      lookupD d k <+: lookupD
        (l.foldl (fun d kv => dictAppend d kv.1 kv.2) d) k := by
  induction l with
  | nil => intro d k; exact List.prefix_rfl
  | cons kv rest ih =>
    intro d k
    exact (lookupD_dictAppend_extends d kv.1 k kv.2).trans (ih _ k)

lemma RBext_extras {st : RBState α} {i : Nat} {extra : List (String × α)}
    {bA : List (List (String × List α))}
    (h : extrasStep st.buffer_additional_dict i extra = some bA) :
    RBext st { st with buffer_additional_dict := bA } := by
  refine ⟨rfl, rfl, rfl, rfl, fun _ => List.prefix_rfl,
    fun _ => List.prefix_rfl, fun _ => List.prefix_rfl,
    fun _ => List.prefix_rfl, fun _ => List.prefix_rfl,
    fun _ => List.prefix_rfl, ?_, rfl, rfl, rfl, rfl, rfl⟩
  intro s k
  unfold extrasStep at h
  split at h
  · cases h
    exact List.prefix_rfl
  · split at h
    · cases h
      by_cases hs : i = s
      · subst hs
        rw [getD_set_self _ _ _ _ (by assumption)]
        exact lookupD_foldl_extends _ _ _
      · rw [getD_set_ne _ _ _ _ _ hs]
    · exact Option.noConfusion h

lemma storeOne_resultState_ext (ego scen obs nobs : List α) (rew : List Int)
    (don : List Bool) (st : RBState α) (i : Nat) (t : Tag α) :
    RBext st (resultState (storeOne ego scen obs nobs rew don st i t)) := by
  rcases hg₀ : ego.get? i with _ | a
  · simp only [storeOne, hg₀, resultState]
    exact RBext.refl st
  · rcases hb₀ : bAppend st.buffer_ego_actions t.scenario_id a with _ | b₀
    · simp only [storeOne, hg₀, hb₀, resultState]
      exact RBext.refl st
    · obtain ⟨hl₀, hq₀⟩ := bAppend_eq_some hb₀
      subst hq₀
      have E₀ := RBext_set_ego (v := a) hl₀
      rcases hg₁ : scen.get? i with _ | b
      · simp only [storeOne, hg₀, hb₀, hg₁, resultState]
        exact E₀
      · rcases hb₁ : bAppend st.buffer_scenario_actions t.scenario_id b
          with _ | b₁
        · simp only [storeOne, hg₀, hb₀, hg₁, hb₁, resultState]
          exact E₀
        · obtain ⟨hl₁, hq₁⟩ := bAppend_eq_some hb₁
          subst hq₁
          have E₁ := E₀.trans (RBext_set_scen (v := b) hl₁)
          rcases hg₂ : obs.get? i with _ | o
          · simp only [storeOne, hg₀, hb₀, hg₁, hb₁, hg₂, resultState]
            exact E₁
          · rcases hb₂ : bAppend st.buffer_obs t.scenario_id o with _ | b₂
            · simp only [storeOne, hg₀, hb₀, hg₁, hb₁, hg₂, hb₂, resultState]
              exact E₁
            · obtain ⟨hl₂, hq₂⟩ := bAppend_eq_some hb₂
              subst hq₂
              have E₂ := E₁.trans (RBext_set_obs (v := o) hl₂)
              rcases hg₃ : nobs.get? i with _ | n
              · simp only [storeOne, hg₀, hb₀, hg₁, hb₁, hg₂, hb₂, hg₃,
                  resultState]
                exact E₂
              · rcases hb₃ : bAppend st.buffer_next_obs t.scenario_id n
                  with _ | b₃
                · simp only [storeOne, hg₀, hb₀, hg₁, hb₁, hg₂, hb₂, hg₃,
                    hb₃, resultState]
                  exact E₂
                · obtain ⟨hl₃, hq₃⟩ := bAppend_eq_some hb₃
                  subst hq₃
                  have E₃ := E₂.trans (RBext_set_nobs (v := n) hl₃)
                  rcases hg₄ : rew.get? i with _ | r
                  · simp only [storeOne, hg₀, hb₀, hg₁, hb₁, hg₂, hb₂, hg₃,
                      hb₃, hg₄, resultState]
                    exact E₃
                  · rcases hb₄ : bAppend st.buffer_rewards t.scenario_id r
                      with _ | b₄
                    · simp only [storeOne, hg₀, hb₀, hg₁, hb₁, hg₂, hb₂,
                        hg₃, hb₃, hg₄, hb₄, resultState]
                      exact E₃
                    · obtain ⟨hl₄, hq₄⟩ := bAppend_eq_some hb₄
                      subst hq₄
                      have E₄ := E₃.trans (RBext_set_rew (v := r) hl₄)
                      rcases hg₅ : don.get? i with _ | dn
                      · simp only [storeOne, hg₀, hb₀, hg₁, hb₁, hg₂, hb₂,
                          hg₃, hb₃, hg₄, hb₄, hg₅, resultState]
                        exact E₄
                      · rcases hb₅ : bAppend st.buffer_dones t.scenario_id dn
                          with _ | b₅
                        · simp only [storeOne, hg₀, hb₀, hg₁, hb₁, hg₂, hb₂,
                            hg₃, hb₃, hg₄, hb₄, hg₅, hb₅, resultState]
                          exact E₄
                        · obtain ⟨hl₅, hq₅⟩ := bAppend_eq_some hb₅
                          subst hq₅
                          have E₅ := E₄.trans (RBext_set_don (v := dn) hl₅)
                          rcases hE : extrasStep st.buffer_additional_dict i
                              t.extra with _ | bA
                          · simp only [storeOne, hg₀, hb₀, hg₁, hb₁, hg₂,
                              hb₂, hg₃, hb₃, hg₄, hb₄, hg₅, hb₅, hE,
                              resultState]
                            exact E₅
                          · simp only [storeOne, hg₀, hb₀, hg₁, hb₁, hg₂,
                              hb₂, hg₃, hb₃, hg₄, hb₄, hg₅, hb₅, hE,
                              resultState]
                            exact E₅.trans (RBext_extras hE)

lemma storeAux_resultState_ext {ego scen obs nobs : List α} {rew : List Int}
    {don : List Bool} :
    ∀ (rest : List (Tag α)) (st : RBState α) (i : Nat),
      RBext st (resultState (storeAux ego scen obs nobs rew don st i rest)) := by
  intro rest
  induction rest with
  | nil =>
    intro st i
    exact RBext.refl st
  | cons t rest ih =>
    intro st i
    have h1 := storeOne_resultState_ext ego scen obs nobs rew don st i t
    rcases hso : storeOne ego scen obs nobs rew don st i t with e | st₁
    · simp only [storeAux, hso]
      rw [hso] at h1
      exact h1
    · simp only [storeAux, hso]
      rw [hso] at h1
      simp only [resultState] at h1
      exact h1.trans (ih st₁ (i + 1))

/-- Counterexample to C9 as stated: a store call that fails (tags longer
than the batch fields) leaves the buffer mutated — the first tagged entry was
already demultiplexed and `buffer_len` already incremented — so the failing
operation is not all-or-nothing. -/
theorem store_failure_mutates_state :
    ((RBState.init Int 2 "x" 10).store [1] [2] [3] [4] [5] [true]
      [⟨0, []⟩, ⟨1, []⟩]).toOption = none ∧
    resultState ((RBState.init Int 2 "x" 10).store [1] [2] [3] [4] [5] [true]
      [⟨0, []⟩, ⟨1, []⟩]) ≠ RBState.init Int 2 "x" 10 := by decide

/-- C9 (amended): failing operations are not rolled back, but they mutate by
appends only.  A failing `store` leaves a state whose `buffer_len` is the old
value plus `len(rewards)` and in which every six-field bucket and every extra
column of the pre-call state survives as a prefix, with the init-side fields
untouched (`RBext`); a failing `finish_one_episode` leaves the state
unchanged except that the episode-reward list has gained the per-scenario
sums computed before the failing scenario id.  (`sample` and `sample_init`
never mutate state at all: they are read-only in the embedding.) -/
theorem failed_operations_append_only (α : Type) :
    (∀ (st : RBState α) (ego scen obs nobs : List α) (rew : List Int)
        (don : List Bool) (tags : List (Tag α)) (e : PyErr)
        (st' : RBState α),
      st.store ego scen obs nobs rew don tags = Except.error (e, st') →
      RBext { st with buffer_len := st.buffer_len + rew.length } st') ∧
    (∀ (st st' : RBState α) (e : PyErr),
      st.finish_one_episode = Except.error (e, st') →
      ∃ tail, st' = { st with buffer_episode_reward :=
        st.buffer_episode_reward ++ tail }) := by
  constructor
  · intro st ego scen obs nobs rew don tags e st' h
    have hx := @storeAux_resultState_ext α ego scen obs nobs rew don tags
      { st with buffer_len := st.buffer_len + rew.length } 0
    rw [RBState.store] at h
    rw [h] at hx
    exact hx
  · intro st st' e h
    exact finishAux_err_shape _ st st' e h

/-- Witness for `failed_operations_append_only` at concrete inputs. -/
theorem failed_operations_append_only_witness :
    RBext { RBState.init Int 2 "x" 10 with
        buffer_len := (RBState.init Int 2 "x" 10).buffer_len + 1 }
      (resultState ((RBState.init Int 2 "x" 10).store [1] [2] [3] [4] [5]
        [true] [⟨0, []⟩, ⟨1, []⟩])) ∧
    (∃ tail, RBState.init Int 1 "x" 10
      = { RBState.init Int 1 "x" 10 with buffer_episode_reward :=
          (RBState.init Int 1 "x" 10).buffer_episode_reward ++ tail }) :=
  ⟨(failed_operations_append_only Int).1 (RBState.init Int 2 "x" 10)
      [1] [2] [3] [4] [5] [true] [⟨0, []⟩, ⟨1, []⟩] PyErr.indexError
      (resultState ((RBState.init Int 2 "x" 10).store [1] [2] [3] [4] [5]
        [true] [⟨0, []⟩, ⟨1, []⟩])) (by decide),
   (failed_operations_append_only Int).2 (RBState.init Int 1 "x" 10)
      (RBState.init Int 1 "x" 10) PyErr.indexError (by decide)⟩
